import Mathlib

/-!
# mesos-cli `run` command (`commands/run.go`)

A shallow embedding of the flag accumulators of `commands/run.go`
(`NetworkMode`, `PortMappings`, `Volumes`, `Parameters`, `Envs`) and of the
action of the `run` command, together with the pieces of the Go standard
library and of `mesos-go` they call.

Conventions of the embedding

* A Go `string` is a list of Unicode code points (`GoString`); the inputs are
  well-formed UTF-8.  The separators used by the code (`:`, `/`, `=`) are
  ASCII, so splitting on code points and splitting on bytes agree.
* A pointer-receiver method `func (x *T) Set(v string) error` becomes a
  function from the receiver's value before the call to the pair
  (value after the call, returned error); `none` is Go's `nil` error.
* `uint64`/`uint32` are `Nat` with explicit reduction modulo `2^64`/`2^32`.
* A Go panic (nil pointer dereference) is the `none` result of an `Option`.
* The action of the command is the list of its effects on the outside, in
  order; the packages it calls (`config`, `runner`, `encoding/json`) are
  parameters.
-/

namespace MesosCli

/-- A Go string, as its sequence of code points. -/
abbrev GoString := List Char

/-- A Go `error` value: `none` is `nil`, `some msg` carries the message. -/
abbrev GoError := Option GoString

deriving instance DecidableEq for Except

/-! ## Go standard library: `strings` -/

/-- Go `strings.Split(s, sep)` for a one-character separator: the substrings of
`s` between the occurrences of `sep` (always at least one substring). -/
def Split : GoString → Char → List GoString
  | [], _ => [[]]
  | c :: cs, sep =>
    if c = sep then [] :: Split cs sep
    else
      match Split cs sep with
      | [] => [[c]]
      | seg :: rest => (c :: seg) :: rest

/-- Go's `unicode.CaseRanges` restricted to what the code needs: the upper and
lower case of a code point above `unicode.MaxASCII`.  The table belongs to the
Go runtime, so it is a parameter of the development. -/
structure CaseTables where
  upper : Char → Char
  lower : Char → Char

/-- Case tables that leave every code point above `MaxASCII` unchanged. -/
def asciiTables : CaseTables := ⟨fun r => r, fun r => r⟩

/-- Go `unicode.ToUpper(r)`. -/
def unicodeToUpper (T : CaseTables) (r : Char) : Char :=
  if r.toNat ≤ 0x7F then
    if 'a'.toNat ≤ r.toNat ∧ r.toNat ≤ 'z'.toNat then Char.ofNat (r.toNat - ('a'.toNat - 'A'.toNat))
    else r
  else T.upper r

/-- Go `unicode.ToLower(r)`. -/
def unicodeToLower (T : CaseTables) (r : Char) : Char :=
  if r.toNat ≤ 0x7F then
    if 'A'.toNat ≤ r.toNat ∧ r.toNat ≤ 'Z'.toNat then Char.ofNat (r.toNat + ('a'.toNat - 'A'.toNat))
    else r
  else T.lower r

/-- Go `strings.ToUpper(s)`. -/
def ToUpper (T : CaseTables) (s : GoString) : GoString := s.map (unicodeToUpper T)

/-- Go `strings.ToLower(s)`. -/
def ToLower (T : CaseTables) (s : GoString) : GoString := s.map (unicodeToLower T)

/-! ## Go standard library: `strconv.ParseUint` -/

/-- The two failures of `strconv.ParseUint`: `strconv.ErrSyntax` and
`strconv.ErrRange`. -/
inductive NumError where
  | invalid
  | outOfRange
  deriving DecidableEq, Repr

/-- The value of one character as a digit in `ParseUint`'s loop: `'0'..'9'`,
then letters of either case via `lower(c) = c | ('x' - 'X')`; `none` is the
`default:` branch.  The loop runs over bytes; every byte of a code point above
`MaxASCII` is at least `0x80` and lands in `default:`. -/
def digitVal (c : Char) : Option Nat :=
  if '0'.toNat ≤ c.toNat ∧ c.toNat ≤ '9'.toNat then some (c.toNat - '0'.toNat)
  else if c.toNat < 0x80 ∧ 'a'.toNat ≤ (c.toNat ||| 0x20) ∧ (c.toNat ||| 0x20) ≤ 'z'.toNat then
    some ((c.toNat ||| 0x20) - 'a'.toNat + 10)
  else none

/-- The digit loop of `ParseUint`: `n` is the accumulated `uint64`,
`underscores` records whether a `_` was skipped. -/
def parseLoop (base : Nat) (base0 : Bool) (cutoff maxVal : Nat) :
    List Char → Nat → Bool → Except NumError (Nat × Bool)
  | [], n, underscores => .ok (n, underscores)
  | c :: cs, n, underscores =>
    if c = '_' ∧ base0 = true then parseLoop base base0 cutoff maxVal cs n true
    else
      match digitVal c with
      | none => .error .invalid
      | some d =>
        if d ≥ base % 256 then .error .invalid
        else if n ≥ cutoff then .error .outOfRange
        else
          let n' := (n * base) % 2 ^ 64
          let n1 := (n' + d) % 2 ^ 64
          if n1 < n' ∨ n1 > maxVal then .error .outOfRange
          else parseLoop base base0 cutoff maxVal cs n1 underscores

/-- What `underscoreOK` saw last: `'^'` start, `'0'` digit or base marker,
`'_'` underscore, `'!'` anything else. -/
inductive Saw where
  | start
  | digit
  | underscore
  | other
  deriving DecidableEq, Repr

/-- The scanning loop of `underscoreOK` from position `i` on. -/
def underscoreScan (hex : Bool) : List Char → Saw → Bool
  | [], saw => decide (saw ≠ Saw.underscore)
  | c :: cs, saw =>
    if ('0'.toNat ≤ c.toNat ∧ c.toNat ≤ '9'.toNat) ∨
        (hex = true ∧ c.toNat < 0x80 ∧ 'a'.toNat ≤ (c.toNat ||| 0x20) ∧ (c.toNat ||| 0x20) ≤ 'f'.toNat) then
      underscoreScan hex cs Saw.digit
    else if c = '_' then
      if saw ≠ Saw.digit then false else underscoreScan hex cs Saw.underscore
    else if saw = Saw.underscore then false
    else underscoreScan hex cs Saw.other

/-- Go `strconv.underscoreOK(s)`: underscores only between digits or between the
base marker and a digit. -/
def underscoreOK (s : GoString) : Bool :=
  let s :=
    match s with
    | c :: cs => if c = '-' ∨ c = '+' then cs else s
    | [] => s
  match s with
  | c0 :: c1 :: rest =>
    if c0 = '0' ∧ c1.toNat < 0x80 ∧
        ((c1.toNat ||| 0x20) = 'b'.toNat ∨ (c1.toNat ||| 0x20) = 'o'.toNat ∨ (c1.toNat ||| 0x20) = 'x'.toNat) then
      underscoreScan (decide ((c1.toNat ||| 0x20) = 'x'.toNat)) rest Saw.digit
    else underscoreScan false s Saw.start
  | _ => underscoreScan false s Saw.start

/-- Go `strconv.ParseUint(s, base, bitSize)` (Go 1.13 and later) for `base` 0
or 2..36 and `bitSize` 1..64 (the code calls it with `0` and `32`).  With `base == 0` the
base is read from the start of `s`: `0b`/`0o`/`0x` (when a digit follows) give
2/8/16, any other leading `0` gives 8, otherwise 10; underscores are allowed
only in that mode and checked by `underscoreOK` at the end. -/
def ParseUint (s : GoString) (base bitSize : Nat) : Except NumError Nat :=
  if s = [] then .error .invalid
  else
    let base0 := decide (base = 0)
    let (base', digits) : Nat × GoString :=
      if base = 0 then
        match s with
        | '0' :: c1 :: rest =>
          if 3 ≤ s.length ∧ c1.toNat < 0x80 ∧ (c1.toNat ||| 0x20) = 'b'.toNat then (2, rest)
          else if 3 ≤ s.length ∧ c1.toNat < 0x80 ∧ (c1.toNat ||| 0x20) = 'o'.toNat then (8, rest)
          else if 3 ≤ s.length ∧ c1.toNat < 0x80 ∧ (c1.toNat ||| 0x20) = 'x'.toNat then (16, rest)
          else (8, c1 :: rest)
        | '0' :: rest => (8, rest)
        | _ => (10, s)
      else (base, s)
    let cutoff := (2 ^ 64 - 1) / base' + 1
    let maxVal := 2 ^ bitSize - 1
    match parseLoop base' base0 cutoff maxVal digits 0 false with
    | .error e => .error e
    | .ok (n, underscores) =>
      if underscores = true ∧ underscoreOK s = false then .error .invalid
      else .ok n

/-! ## Go standard library: `fmt` -/

/-- The `%d` verb of `fmt.Sprintf` for an unsigned value: decimal digits,
no sign, no padding. -/
def fmtD (n : Nat) : GoString := Nat.toDigits 10 n

/-- The `fmt.Errorf(format + "%s", v)` calls of the code: the fixed text
followed by the offending flag value. -/
def Errorf (text : String) (v : GoString) : GoError := some (text.toList ++ v)

/-! ## `mesos-go` message types and enum tables -/

/-- The enum `mesos.ContainerInfo_DockerInfo_Network` (an `int32`). -/
abbrev ContainerInfo_DockerInfo_Network := Int

/-- The generated table `mesos.ContainerInfo_DockerInfo_Network_value` of
`mesos-go`: enum name to number. -/
def ContainerInfo_DockerInfo_Network_value : List (GoString × Int) :=
  [("HOST".toList, 1), ("BRIDGE".toList, 2), ("NONE".toList, 3), ("USER".toList, 4)]

/-- The enum `mesos.Volume_Mode` (an `int32`). -/
abbrev Volume_Mode := Int

/-- The constant `mesos.RW`. -/
def RW : Volume_Mode := 1

/-- The constant `mesos.RO`. -/
def RO : Volume_Mode := 2

/-- The generated table `mesos.Volume_Mode_value` of `mesos-go`. -/
def Volume_Mode_value : List (GoString × Int) :=
  [("RW".toList, 1), ("RO".toList, 2)]

/-- A Go map read `m[k]` with one result: the zero value when `k` is absent. -/
def mapIndex (m : List (GoString × Int)) (k : GoString) : Int :=
  (m.lookup k).getD 0

/-- The fields of `mesos.ContainerInfo_DockerInfo_PortMapping` the code
touches; `Protocol` is a `*string`, `none` being the nil pointer. -/
structure PortMapping where
  HostPort : Nat
  ContainerPort : Nat
  Protocol : Option GoString
  deriving DecidableEq, Repr

/-- The fields of `mesos.Volume` the code touches; `Mode` is a `*Volume_Mode`. -/
structure Volume where
  Mode : Option Volume_Mode
  ContainerPath : GoString
  HostPath : GoString
  deriving DecidableEq, Repr

/-- The message `mesos.Parameter`. -/
structure Parameter where
  Key : GoString
  Value : GoString
  deriving DecidableEq, Repr

/-- The message `mesos.Environment_Variable`. -/
structure Environment_Variable where
  Name : GoString
  Value : GoString
  deriving DecidableEq, Repr

/-! ## `commands/run.go` -/

/-- Type `type NetworkMode struct { mode string }`. -/
structure NetworkMode where
  mode : GoString
  deriving DecidableEq, Repr

/-- Method `func (n *NetworkMode) Set(v string) error`. -/
def NetworkMode.Set (T : CaseTables) (n : NetworkMode) (v : GoString) : NetworkMode × GoError :=
  match ContainerInfo_DockerInfo_Network_value.lookup (ToUpper T v) with
  | none => (n, Errorf "Bad network mode: " v)
  | some _ => ({ mode := ToUpper T v }, none)

/-- Method `func (n NetworkMode) String() string`. -/
def NetworkMode.String (n : NetworkMode) : GoString := n.mode

/-- Method `func (n NetworkMode) Mode() mesos.ContainerInfo_DockerInfo_Network`. -/
def NetworkMode.Mode (n : NetworkMode) : ContainerInfo_DockerInfo_Network :=
  mapIndex ContainerInfo_DockerInfo_Network_value n.mode

/-- Type `type PortMappings []mesos.ContainerInfo_DockerInfo_PortMapping`. -/
abbrev PortMappings := List PortMapping

/-- Method `func (mappings *PortMappings) Set(v string) (err error)`. -/
def PortMappings.Set (T : CaseTables) (mappings : PortMappings) (v : GoString) :
    PortMappings × GoError :=
  let split := Split v ':'
  if split.length ≠ 2 then (mappings, Errorf "Bad port mapping " v)
  else
    match ParseUint (split.getD 0 []) 0 32 with
    | .error _ => (mappings, Errorf "Bad port mapping " v)
    | .ok host =>
      let hostPort := host % 2 ^ 32
      let split := Split (split.getD 1 []) '/'
      -- the code after the `if len(split) == 2` block
      let rest (protocol : Option GoString) : PortMappings × GoError :=
        match ParseUint (split.getD 0 []) 0 32 with
        | .error _ => (mappings, Errorf "Bad port mapping " v)
        | .ok cont =>
          (mappings ++ [{ HostPort := hostPort, ContainerPort := cont % 2 ^ 32, Protocol := protocol }],
            none)
      if split.length = 2 then
        let proto := ToLower T (split.getD 1 [])
        if ¬ (proto = "tcp".toList ∨ proto = "udp".toList) then
          (mappings, Errorf "Bad port mapping " v)
        else rest (some proto)
      else rest none

/-- Method `func (mappings PortMappings) String() string`; `none` is the panic of
`*mapping.Protocol` on a nil pointer. -/
def PortMappings.String (mappings : PortMappings) : Option GoString :=
  mappings.foldlM
    (fun s mapping =>
      match mapping.Protocol with
      | none => none
      | some proto =>
        some (s ++ (fmtD mapping.HostPort ++ ":".toList ++ fmtD mapping.ContainerPort ++
          "/".toList ++ proto)))
    []

/-- Type `type Volumes []mesos.Volume`. -/
abbrev Volumes := List Volume

/-- Method `func (vols *Volumes) Set(v string) error`. -/
def Volumes.Set (T : CaseTables) (vols : Volumes) (v : GoString) : Volumes × GoError :=
  let split := Split v ':'
  if split.length < 2 then (vols, Errorf "Bad volume: " v)
  else
    let hostPath := split.getD 0 []
    let containerPath := split.getD 1 []
    if split.length = 3 then
      let mode := ToUpper T (split.getD 2 [])
      if ¬ (mode = "RW".toList ∨ mode = "RO".toList) then (vols, Errorf "Bad volume: " v)
      else
        (vols ++ [{ HostPath := hostPath, ContainerPath := containerPath,
                    Mode := some (mapIndex Volume_Mode_value mode) }], none)
    else
      (vols ++ [{ HostPath := hostPath, ContainerPath := containerPath, Mode := some RO }], none)

/-- Method `func (vols Volumes) String() string`. -/
def Volumes.String (vols : Volumes) : GoString :=
  vols.foldl (fun s vol => s ++ (vol.HostPath ++ ":".toList ++ vol.ContainerPath)) []

/-- Type `type Parameters []mesos.Parameter`. -/
abbrev Parameters := List Parameter

/-- Method `func (params Parameters) String() string`. -/
def Parameters.String (params : Parameters) : GoString :=
  params.foldl (fun s param => s ++ (param.Key ++ "=".toList ++ param.Value)) []

/-- Method `func (params *Parameters) Set(v string) error`. -/
def Parameters.Set (params : Parameters) (v : GoString) : Parameters × GoError :=
  let split := Split v '='
  if split.length ≠ 2 then (params, Errorf "Bad Docker parameter " v)
  else (params ++ [{ Key := split.getD 0 [], Value := split.getD 1 [] }], none)

/-- Type `type Envs []mesos.Environment_Variable`. -/
abbrev Envs := List Environment_Variable

/-- Method `func (envs Envs) String() string`. -/
def Envs.String (envs : Envs) : GoString :=
  envs.foldl (fun s env => s ++ (env.Name ++ "=".toList ++ env.Value)) []

/-- Method `func (envs *Envs) Set(v string) error`. -/
def Envs.Set (envs : Envs) (v : GoString) : Envs × GoError :=
  let split := Split v '='
  if split.length ≠ 2 then (envs, Errorf "Bad environment variable " v)
  else (envs ++ [{ Name := split.getD 0 [], Value := split.getD 1 [] }], none)

/-! ## Vocabulary of the specification -/

/-- The text `s` is an unsigned integer parseable in 32 bits: `strconv.ParseUint(s, 0, 32)`
returns a value, and that value is below `2^32`. -/
def isUint32 (s : GoString) : Prop := ∃ n, n < 2 ^ 32 ∧ ParseUint s 0 32 = .ok n

/-- The text of `v` before its first `sep`. -/
def before (sep : Char) (v : GoString) : GoString := v.takeWhile (fun c => c != sep)

/-- The text of `v` after its first `sep` (empty when there is none). -/
def after (sep : Char) (v : GoString) : GoString := (v.dropWhile (fun c => c != sep)).drop 1

/-- The HOST segment of a port string `HOST:CONTAINER[/PROTO]`. -/
def hostSegment (v : GoString) : GoString := before ':' v

/-- The CONTAINER segment of a port string `HOST:CONTAINER[/PROTO]`: the text
after the colon and before any `/PROTO` suffix. -/
def containerSegment (v : GoString) : GoString := before '/' (after ':' v)

/-- Two code points that are equal or are the same ASCII letter in different
case (`'A'..'Z'` against the code point 32 above it). -/
def sameLetter (a b : Char) : Prop :=
  a = b ∨
  ('A'.toNat ≤ a.toNat ∧ a.toNat ≤ 'Z'.toNat ∧ b.toNat = a.toNat + 32) ∨
  ('A'.toNat ≤ b.toNat ∧ b.toNat ≤ 'Z'.toNat ∧ a.toNat = b.toNat + 32)

/-- The strings `v` and `w` differ only in letter case. -/
def differOnlyInCase (v w : GoString) : Prop := List.Forall₂ sameLetter v w

/-- The names of the network modes, the keys of
`ContainerInfo_DockerInfo_Network_value`. -/
def networkModeNames : List GoString :=
  ["HOST".toList, "BRIDGE".toList, "NONE".toList, "USER".toList]

/-- The value `net := &NetworkMode{mode: "BRIDGE"}` that `Run.Init` registers
for the `--net` flag. -/
def initialNetworkMode : NetworkMode := { mode := "BRIDGE".toList }

/-- The receiver after the calls `Set(v)` for each `v` of `vs` in turn,
whatever each call returns. -/
def NetworkMode.SetAll (T : CaseTables) (n : NetworkMode) (vs : List GoString) : NetworkMode :=
  vs.foldl (fun n v => (NetworkMode.Set T n v).1) n

/-- The mode named by the last value of `vs` whose uppercase form is a network
mode name, `BRIDGE` when there is none. -/
def lastAcceptedMode (T : CaseTables) (vs : List GoString) : GoString :=
  match vs.reverse.find? (fun v => decide (ToUpper T v ∈ networkModeNames)) with
  | some v => ToUpper T v
  | none => "BRIDGE".toList

/-- A decimal digit, `'0'` to `'9'`. -/
abbrev isDecimalDigit (c : Char) : Prop := '0'.toNat ≤ c.toNat ∧ c.toNat ≤ '9'.toNat

/-- A non-empty string of decimal digits. -/
abbrev isDigitString (s : GoString) : Prop := s ≠ [] ∧ ∀ c ∈ s, isDecimalDigit c

/-- The number a string of decimal digits denotes in base ten. -/
def decimalValue (s : GoString) : Nat :=
  s.foldl (fun n c => 10 * n + (c.toNat - '0'.toNat)) 0

/-- A digit string written without a superfluous leading zero: `0` itself, or
a string that does not start with `0`. -/
abbrev noLeadingZero (s : GoString) : Prop := s = ['0'] ∨ s.head? ≠ some '0'

/-- The text `p` is `tcp` or `udp` in some letter case. -/
def isProtocolName (p : GoString) : Prop :=
  differOnlyInCase p "tcp".toList ∨ differOnlyInCase p "udp".toList

/-! ## `commands/run.go`: the action of the `run` command -/

/-- The struct `config.CommandOpts` as the action fills it. -/
structure CommandOpts where
  Value : GoString
  User : GoString
  Shell : Bool
  Envs : Envs
  deriving DecidableEq, Repr

/-- The struct `config.ContainerOpts` as the action fills it. -/
structure ContainerOpts where
  Docker : Bool
  Privileged : Bool
  Image : GoString
  Parameters : Parameters
  Volumes : Volumes
  NetworkMode : ContainerInfo_DockerInfo_Network
  PortMappings : PortMappings
  deriving DecidableEq, Repr

/-- The profile options the action builds: `config.Master`, `config.Restart`,
`config.Command` and `config.Container`, each with its argument. -/
inductive ProfileOption where
  | Master (hostname : GoString)
  | Restart (restart : Bool)
  | Command (opts : CommandOpts)
  | Container (opts : ContainerOpts)
  deriving DecidableEq, Repr

/-- The values the flag variables of `Run.Init` hold when the action runs. -/
structure RunFlags where
  command : GoString
  user : GoString
  shell : Bool
  hostname : GoString
  path : GoString
  dump : Bool
  docker : Bool
  image : GoString
  restart : Bool
  privileged : Bool
  envs : Envs
  volumes : Volumes
  net : NetworkMode
  params : Parameters
  mappings : PortMappings
  deriving DecidableEq, Repr

/-- The flag values when no flag is given: the defaults `Run.Init` declares. -/
def defaultFlags : RunFlags :=
  { command := [], user := "root".toList, shell := false, hostname := [], path := [],
    dump := false, docker := false, image := [], restart := false, privileged := false,
    envs := [], volumes := [], net := initialNetworkMode, params := [], mappings := [] }

/-- The packages the action calls, which lie outside `commands/run.go`, for a
profile type `Profile` and a task type `TaskInfo`: the value `profile()`
returns, `(*Profile).With`, `(*Profile).Task`, `config.TasksFromFile`,
`json.MarshalIndent` on the task list, and `runner.Run`. -/
structure Collaborators (Profile TaskInfo : Type) where
  profile : Profile
  With : Profile → List ProfileOption → Profile
  Task : Profile → TaskInfo
  TasksFromFile : GoString → Except GoString (List TaskInfo)
  MarshalIndent : List TaskInfo → Except GoString GoString
  Run : Profile → List TaskInfo → GoError

/-- What the action does to the outside, in order.  `PrintLongHelp` carries
the texts of the flag values the help shows; `Panic` is a Go panic, which ends
the run. -/
inductive Event (Profile TaskInfo : Type) where
  | PrintLongHelp (texts : List GoString)
  | Panic
  | GetProfile
  | With (opts : List ProfileOption)
  | Task (profile : Profile)
  | TasksFromFile (path : GoString)
  | Fail (err : GoString)
  | Println (s : GoString)
  | Run (profile : Profile) (tasks : List TaskInfo)
  | Exit (code : Nat)

/-- Modelled from the spec: `failOnErr`, a helper of package `commands` defined
outside `run.go`.  On a nil error the run goes on (with the events `next`); on
any other error it aborts with a user-facing message and exit code 1. -/
def failOnErr {Profile TaskInfo : Type} (err : GoError)
    (next : List (Event Profile TaskInfo)) : List (Event Profile TaskInfo) :=
  match err with
  | none => next
  | some e => [Event.Fail e, Event.Exit 1]

/-- The call `cmd.PrintLongHelp()` of mow.cli, which lies outside the
repository: the help lists every option with the current text of its value,
which it reads through the value's `String()` method.  The values registered
with `cmd.VarOpt` are, in order, `envs`, `volumes`, `net`, `params` and
`mappings`; the result is their texts, `none` when a `String()` panics (only
`PortMappings.String` can). -/
def PrintLongHelp (f : RunFlags) : Option (List GoString) :=
  match PortMappings.String f.mappings with
  | none => none
  | some ports =>
    some [Envs.String f.envs, Volumes.String f.volumes, NetworkMode.String f.net,
      Parameters.String f.params, ports]

/-- The options handed to `profile.With` when `--path` is empty. -/
def Run.options (f : RunFlags) : List ProfileOption :=
  [ ProfileOption.Master f.hostname,
    ProfileOption.Restart f.restart,
    ProfileOption.Command
      { Value := f.command, User := f.user, Shell := f.shell, Envs := f.envs },
    ProfileOption.Container
      { Docker := f.docker, Privileged := f.privileged, Image := f.image,
        Parameters := f.params, Volumes := f.volumes, NetworkMode := f.net.Mode,
        PortMappings := f.mappings } ]

/-- The code of the action from `if *dump` on, for the profile and the task
list built before it. -/
def Run.finish {Profile TaskInfo : Type} (C : Collaborators Profile TaskInfo) (f : RunFlags)
    (profile : Profile) (tasks : List TaskInfo) : List (Event Profile TaskInfo) :=
  if f.dump = true then
    match C.MarshalIndent tasks with
    | .error e => failOnErr (some e) []
    | .ok raw => failOnErr none [Event.Println raw, Event.Exit 0]
  else Event.Run profile tasks :: failOnErr (C.Run profile tasks) []

/-- The closure `cmd.Action` of `Run.Init`, as the sequence of its effects; a
sequence that ends in `Exit` is a run that `os.Exit` ended, one that ends in
`Panic` a run that a panic ended. -/
def Run.Action {Profile TaskInfo : Type} (C : Collaborators Profile TaskInfo) (f : RunFlags) :
    List (Event Profile TaskInfo) :=
  if f.command = [] ∧ f.image = [] ∧ f.path = [] then
    match PrintLongHelp f with
    | none => [Event.Panic]
    | some texts => [Event.PrintLongHelp texts, Event.Exit 1]
  else
    let profile := C.profile
    Event.GetProfile ::
      (if f.path = [] then
        let profile := C.With profile (Run.options f)
        Event.With (Run.options f) :: Event.Task profile ::
          Run.finish C f profile ([] ++ [C.Task profile])
      else
        Event.TasksFromFile f.path ::
          (match C.TasksFromFile f.path with
           | .error e => failOnErr (some e) []
           | .ok infos =>
             failOnErr none
               (Run.finish C f profile (infos.foldl (fun tasks info => tasks ++ [info]) []))))

/-- Collaborators that record what they are given: a profile is the list of
the options applied to it, a task is the profile it was built from, the file
`tasks.json` holds two tasks and no other file exists. -/
def recordingCollaborators : Collaborators (List ProfileOption) (List ProfileOption) :=
  { profile := [],
    With := fun p opts => p ++ opts,
    Task := fun p => p,
    TasksFromFile := fun path =>
      if path = "tasks.json".toList then
        .ok [[ProfileOption.Restart true], [ProfileOption.Restart false]]
      else .error "no such file".toList,
    MarshalIndent := fun _ => .ok "[]".toList,
    Run := fun _ _ => none }

/-! # Theorems

## Facts about the library functions -/

theorem Split_ne_nil (s : GoString) (sep : Char) : Split s sep ≠ [] := by
  induction s with
  | nil => simp [Split]
  | cons c cs ih =>
    simp only [Split]
    split
    · simp
    · split <;> simp

theorem Split_length (s : GoString) (sep : Char) :
    (Split s sep).length = s.count sep + 1 := by
  induction s with
  | nil => simp [Split]
  | cons c cs ih =>
    simp only [Split]
    by_cases h : c = sep
    · subst h
      simp [ih]
    · have hc : (c == sep) = false := by simpa using h
      rw [if_neg h, List.count_cons, hc]
      cases hs : Split cs sep with
      | nil => exact absurd hs (Split_ne_nil cs sep)
      | cons seg rest =>
        rw [hs] at ih
        simpa using ih

theorem Split_of_not_mem (a : GoString) (sep : Char) (h : sep ∉ a) : Split a sep = [a] := by
  induction a with
  | nil => simp [Split]
  | cons c cs ih =>
    have h1 : c ≠ sep := fun e => h (by simp [e])
    have h2 : sep ∉ cs := fun e => h (by simp [e])
    simp [Split, h1, ih h2]

theorem Split_append (a b : GoString) (sep : Char) (h : sep ∉ a) :
    Split (a ++ sep :: b) sep = a :: Split b sep := by
  induction a with
  | nil => simp [Split]
  | cons c cs ih =>
    have h1 : c ≠ sep := fun e => h (by simp [e])
    have h2 : sep ∉ cs := fun e => h (by simp [e])
    simp [Split, h1, ih h2]

theorem Split_eq_cons (s : GoString) (sep : Char) :
    Split s sep =
      s.takeWhile (fun c => c != sep) ::
        (match s.dropWhile (fun c => c != sep) with
         | [] => []
         | _ :: rest => Split rest sep) := by
  induction s with
  | nil => simp [Split]
  | cons c cs ih =>
    by_cases h : c = sep
    · subst h
      simp [Split]
    · simp only [Split, if_neg h]
      rw [ih]
      simp [List.takeWhile_cons, List.dropWhile_cons, h]

theorem parseLoop_le (base : Nat) (base0 : Bool) (cutoff maxVal : Nat) (cs : List Char) :
    ∀ (n : Nat) (us : Bool) (m : Nat) (us' : Bool),
      parseLoop base base0 cutoff maxVal cs n us = .ok (m, us') → n ≤ maxVal → m ≤ maxVal := by
  induction cs with
  | nil =>
    intro n us m us' h hn
    simp only [parseLoop, Except.ok.injEq, Prod.mk.injEq] at h
    omega
  | cons c cs ih =>
    intro n us m us' h hn
    simp only [parseLoop] at h
    split at h
    · exact ih _ _ _ _ h hn
    · split at h
      · cases h
      · split at h
        · cases h
        · split at h
          · cases h
          · split at h
            · cases h
            · rename_i hb
              exact ih _ _ _ _ h (by omega)

theorem ParseUint_lt (s : GoString) (bitSize n : Nat) (h : ParseUint s 0 bitSize = .ok n) :
    n < 2 ^ bitSize := by
  have hpos : 0 < 2 ^ bitSize := Nat.two_pow_pos bitSize
  unfold ParseUint at h
  split at h
  · cases h
  · simp only at h
    split at h
    · cases h
    · rename_i n' us hl
      split at h
      · cases h
      · cases h
        have := parseLoop_le _ _ _ _ _ _ _ _ _ hl (Nat.zero_le _)
        omega

theorem not_isUint32_of_error (s : GoString) (e : NumError) (h : ParseUint s 0 32 = .error e) :
    ¬ isUint32 s := by
  rintro ⟨n, _, hn⟩
  rw [h] at hn
  cases hn

theorem Split_length_one (s : GoString) (sep : Char) (h : (Split s sep).length = 1) :
    Split s sep = [s] := by
  rw [Split_length] at h
  exact Split_of_not_mem s sep (List.count_eq_zero.mp (by omega))

theorem Split_two (s : GoString) (sep : Char) (h : (Split s sep).length = 2) :
    Split s sep = [before sep s, after sep s] := by
  have h2 := Split_eq_cons s sep
  rw [h2] at h
  unfold before after
  cases hd : s.dropWhile (fun c => c != sep) with
  | nil => rw [hd] at h; simp at h
  | cons x rest =>
    rw [hd] at h h2
    simp only [List.length_cons, Nat.add_right_cancel_iff] at h
    rw [h2]
    simp only [List.drop_succ_cons, List.drop_zero]
    rw [Split_length_one rest sep (by simpa using h)]

theorem Split_head (s : GoString) (sep : Char) : (Split s sep).getD 0 [] = before sep s := by
  rw [Split_eq_cons]; simp [before]


theorem unicodeToUpper_sameLetter (T : CaseTables) (a b : Char) (h : sameLetter a b) :
    unicodeToUpper T a = unicodeToUpper T b := by
  have key : ∀ x y : Char, 'A'.toNat ≤ x.toNat → x.toNat ≤ 'Z'.toNat → y.toNat = x.toNat + 32 →
      unicodeToUpper T x = unicodeToUpper T y := by
    intro x y h1 h2 h3
    have e1 : 'A'.toNat = 65 := by decide
    have e2 : 'Z'.toNat = 90 := by decide
    have e3 : 'a'.toNat = 97 := by decide
    have e4 : 'z'.toNat = 122 := by decide
    rw [e1] at h1
    rw [e2] at h2
    unfold unicodeToUpper
    rw [e1, e3, e4]
    rw [if_pos (by omega), if_neg (by omega), if_pos (by omega), if_pos (by omega)]
    have : y.toNat - (97 - 65) = x.toNat := by omega
    rw [this, Char.ofNat_toNat]
  rcases h with h | ⟨h1, h2, h3⟩ | ⟨h1, h2, h3⟩
  · rw [h]
  · exact key a b h1 h2 h3
  · exact (key b a h1 h2 h3).symm

theorem ToUpper_differOnlyInCase (T : CaseTables) (v w : GoString) (h : differOnlyInCase v w) :
    ToUpper T v = ToUpper T w := by
  unfold differOnlyInCase at h
  induction h with
  | nil => rfl
  | cons hab _ ih =>
    simp only [ToUpper, List.map_cons, List.cons.injEq] at ih ⊢
    exact ⟨unicodeToUpper_sameLetter T _ _ hab, ih⟩

theorem lookup_eq_some_iff (l : List (GoString × Int)) (k : GoString) :
    (∃ m, l.lookup k = some m) ↔ k ∈ l.map Prod.fst := by
  induction l with
  | nil => simp
  | cons p l ih =>
    obtain ⟨a, b⟩ := p
    by_cases h : k = a
    · subst h
      simp [List.lookup]
    · have hb : (k == a) = false := by simpa using h
      simp only [List.lookup, hb, List.map_cons, List.mem_cons, h, false_or]
      exact ih

theorem lookup_network_isSome (k : GoString) :
    (∃ m, ContainerInfo_DockerInfo_Network_value.lookup k = some m) ↔ k ∈ networkModeNames :=
  lookup_eq_some_iff _ k

/-! ## The claims -/

/-- C1: `PortMappings.Set(v)` returns the "Bad port mapping" error and leaves the
list as it was whenever `v` does not hold exactly one `:` (the split does not
give two segments), or the host segment is not an unsigned integer parseable
in 32 bits, or the container segment (the text before any `/PROTO` suffix) is
not one. -/
theorem PortMappings_Set_rejects (T : CaseTables) (mappings : PortMappings) (v : GoString)
    (h : v.count ':' ≠ 1 ∨ ¬ isUint32 (hostSegment v) ∨ ¬ isUint32 (containerSegment v)) :
    PortMappings.Set T mappings v = (mappings, Errorf "Bad port mapping " v) := by
  unfold PortMappings.Set
  by_cases hl : (Split v ':').length = 2
  · have hs := Split_two v ':' hl
    have hcount : v.count ':' = 1 := by rw [Split_length] at hl; omega
    simp only [hs, List.length_cons, List.length_nil, ne_eq, not_true_eq_false, if_false,
      List.getD_cons_zero, List.getD_cons_succ, Split_head]
    cases hh : ParseUint (before ':' v) 0 32 with
    | error e => rfl
    | ok host =>
      have hhost : isUint32 (hostSegment v) := ⟨host, ParseUint_lt _ _ _ hh, hh⟩
      have hcont : ¬ isUint32 (containerSegment v) := by
        rcases h with h | h | h
        · exact absurd hcount h
        · exact absurd hhost h
        · exact h
      cases hc : ParseUint (before '/' (after ':' v)) 0 32 with
      | ok cont => exact absurd ⟨cont, ParseUint_lt _ _ _ hc, hc⟩ hcont
      | error e =>
        simp only []
        split
        · split <;> rfl
        · rfl
  · simp [hl]

/-- C1 at the six inputs the claim names: each is rejected. -/
theorem PortMappings_Set_rejects_witness :
    PortMappings.Set asciiTables [] "8080".toList = ([], Errorf "Bad port mapping " "8080".toList) ∧
    PortMappings.Set asciiTables [] "1:2:3".toList = ([], Errorf "Bad port mapping " "1:2:3".toList) ∧
    PortMappings.Set asciiTables [] "a:80".toList = ([], Errorf "Bad port mapping " "a:80".toList) ∧
    PortMappings.Set asciiTables [] "80:b".toList = ([], Errorf "Bad port mapping " "80:b".toList) ∧
    PortMappings.Set asciiTables [] "-1:80".toList = ([], Errorf "Bad port mapping " "-1:80".toList) ∧
    PortMappings.Set asciiTables [] "4294967296:80".toList =
      ([], Errorf "Bad port mapping " "4294967296:80".toList) :=
  ⟨PortMappings_Set_rejects _ _ _ (Or.inl (by decide)),
   PortMappings_Set_rejects _ _ _ (Or.inl (by decide)),
   PortMappings_Set_rejects _ _ _ (Or.inr (Or.inl (not_isUint32_of_error _ .invalid (by decide)))),
   PortMappings_Set_rejects _ _ _ (Or.inr (Or.inr (not_isUint32_of_error _ .invalid (by decide)))),
   PortMappings_Set_rejects _ _ _ (Or.inr (Or.inl (not_isUint32_of_error _ .invalid (by decide)))),
   PortMappings_Set_rejects _ _ _ (Or.inr (Or.inl (not_isUint32_of_error _ .outOfRange (by decide))))⟩

/-- C2: on `"80:80/tcp/udp"` and on `"80:80/x/y"` the suffix after the first `/`
is neither `tcp` nor `udp`, yet `PortMappings.Set` returns no error and appends
the mapping 80 to 80 with no protocol. -/
theorem PortMappings_Set_accepts_slashed_suffix :
    PortMappings.Set asciiTables [] "80:80/tcp/udp".toList =
      ([{ HostPort := 80, ContainerPort := 80, Protocol := none }], none) ∧
    PortMappings.Set asciiTables [] "80:80/x/y".toList =
      ([{ HostPort := 80, ContainerPort := 80, Protocol := none }], none) := by
  decide

/-- C3, as stated, fails: `PortMappings.Set` accepts `"8080:80"` and the mapping
it appends has a nil protocol, not the protocol `tcp`. -/
theorem PortMappings_Set_default_protocol_counterexample :
    PortMappings.Set asciiTables [] "8080:80".toList =
      ([{ HostPort := 8080, ContainerPort := 80, Protocol := none }], none) ∧
    (PortMappings.Set asciiTables [] "8080:80".toList).1 ≠
      [{ HostPort := 8080, ContainerPort := 80, Protocol := some "tcp".toList }] := by
  decide

/-- C3, amended: when `PortMappings.Set` accepts an input `HOST:CONTAINER` with
no `/` (no protocol suffix), it appends exactly one mapping, whose ports are the
values `ParseUint` reads from the two segments and whose protocol is left
unset (nil). -/
theorem PortMappings_Set_no_suffix (T : CaseTables) (mappings : PortMappings) (v : GoString)
    (hslash : '/' ∉ v) (hok : (PortMappings.Set T mappings v).2 = none) :
    ∃ host cont, ParseUint (hostSegment v) 0 32 = .ok host ∧
      ParseUint (after ':' v) 0 32 = .ok cont ∧ host < 2 ^ 32 ∧ cont < 2 ^ 32 ∧
      (PortMappings.Set T mappings v).1 =
        mappings ++ [{ HostPort := host, ContainerPort := cont, Protocol := none }] := by
  unfold PortMappings.Set at hok ⊢
  by_cases hl : (Split v ':').length = 2
  · have hs := Split_two v ':' hl
    have hno : '/' ∉ after ':' v := fun hm =>
      hslash ((List.dropWhile_suffix _).subset (List.mem_of_mem_drop hm))
    have hsl : Split (after ':' v) '/' = [after ':' v] := Split_of_not_mem _ _ hno
    simp only [hs, hsl, List.length_cons, List.length_nil, ne_eq, not_true_eq_false, if_false,
      List.getD_cons_zero, List.getD_cons_succ] at hok ⊢
    cases hh : ParseUint (before ':' v) 0 32 with
    | error e => rw [hh] at hok; simp [Errorf] at hok
    | ok host =>
      cases hc : ParseUint (after ':' v) 0 32 with
      | error e => rw [hh] at hok; simp [hc, Errorf] at hok
      | ok cont =>
        have h1 := ParseUint_lt _ _ _ hh
        have h2 := ParseUint_lt _ _ _ hc
        refine ⟨host, cont, hh, rfl, h1, h2, ?_⟩
        simp only [Nat.mod_eq_of_lt h1, Nat.mod_eq_of_lt h2]
        split
        · omega
        · rfl
  · simp [hl, Errorf] at hok

/-- C3, amended, at `"8080:80"`. -/
theorem PortMappings_Set_no_suffix_witness :
    ∃ host cont, ParseUint (hostSegment "8080:80".toList) 0 32 = .ok host ∧
      ParseUint (after ':' "8080:80".toList) 0 32 = .ok cont ∧ host < 2 ^ 32 ∧ cont < 2 ^ 32 ∧
      (PortMappings.Set asciiTables [] "8080:80".toList).1 =
        [] ++ [{ HostPort := host, ContainerPort := cont, Protocol := none }] :=
  PortMappings_Set_no_suffix asciiTables [] "8080:80".toList (by decide) (by decide)

/-- C4: `PortMappings.Set` accepts `"8080:80"` on the empty list, and
`PortMappings.String` of the resulting list panics (it dereferences the nil
`Protocol`) instead of returning a string. -/
theorem PortMappings_String_panics_without_suffix :
    (PortMappings.Set asciiTables [] "8080:80".toList).2 = none ∧
    PortMappings.String (PortMappings.Set asciiTables [] "8080:80".toList).1 = none := by
  decide

/-- C5: `Volumes.Set` accepts `"/a:/b:xx:/c"`, whose third segment `xx` is neither
`RO` nor `RW`: it returns no error and appends the read-only volume `/a` to `/b`,
while it rejects `"/a:/b:xx"`. -/
theorem Volumes_Set_accepts_four_segments :
    Volumes.Set asciiTables [] "/a:/b:xx:/c".toList =
      ([{ HostPath := "/a".toList, ContainerPath := "/b".toList, Mode := some RO }], none) ∧
    Volumes.Set asciiTables [] "/a:/b:xx".toList = ([], Errorf "Bad volume: " "/a:/b:xx".toList) := by
  decide

/-- C6: for an input `HOST:CONTAINER` whose two segments hold no colon,
`Volumes.Set` returns no error and appends exactly one volume, with host path
`HOST`, container path `CONTAINER` and mode `RO` (read-only). -/
theorem Volumes_Set_two_segments (T : CaseTables) (vols : Volumes) (host cont : GoString)
    (hh : ':' ∉ host) (hc : ':' ∉ cont) :
    Volumes.Set T vols (host ++ ':' :: cont) =
      (vols ++ [{ HostPath := host, ContainerPath := cont, Mode := some RO }], none) := by
  unfold Volumes.Set
  simp [Split_append host cont ':' hh, Split_of_not_mem cont ':' hc]

/-- C6 at `"/data:/mnt"`. -/
theorem Volumes_Set_two_segments_witness :
    Volumes.Set asciiTables [] ("/data".toList ++ ':' :: "/mnt".toList) =
      ([] ++ [{ HostPath := "/data".toList, ContainerPath := "/mnt".toList, Mode := some RO }],
        none) :=
  Volumes_Set_two_segments asciiTables [] "/data".toList "/mnt".toList (by decide) (by decide)

/-- C7, as stated, fails: `"=value"` holds exactly one `=` and its key, the text
before the `=`, is empty, yet `Parameters.Set` returns no error and appends the
parameter with the empty key. -/
theorem Parameters_Set_empty_key_counterexample :
    Parameters.Set [] "=value".toList = ([{ Key := [], Value := "value".toList }], none) ∧
    ¬ ((Parameters.Set [] "=value".toList).2 = none ↔
        (List.count '=' "=value".toList = 1 ∧ before '=' "=value".toList ≠ [])) := by
  decide

/-- C7, amended: `Parameters.Set(v)` returns no error if and only if `v` holds
exactly one `=`; it then appends the parameter whose key is the text before the
`=` and whose value is the text after it (either may be empty), and otherwise
it returns the "Bad Docker parameter" error and leaves the list as it was. -/
theorem Parameters_Set_iff_one_eq (params : Parameters) (v : GoString) :
    ((Parameters.Set params v).2 = none ↔ v.count '=' = 1) ∧
    (v.count '=' = 1 →
      Parameters.Set params v =
        (params ++ [{ Key := before '=' v, Value := after '=' v }], none)) ∧
    (v.count '=' ≠ 1 →
      Parameters.Set params v = (params, Errorf "Bad Docker parameter " v)) := by
  have hlen : (Split v '=').length = 2 ↔ v.count '=' = 1 := by
    rw [Split_length]; omega
  have hpos : v.count '=' = 1 →
      Parameters.Set params v =
        (params ++ [{ Key := before '=' v, Value := after '=' v }], none) := by
    intro h
    have hl := hlen.mpr h
    unfold Parameters.Set
    simp [Split_two v '=' hl]
  have hneg : v.count '=' ≠ 1 →
      Parameters.Set params v = (params, Errorf "Bad Docker parameter " v) := by
    intro h
    have hl : (Split v '=').length ≠ 2 := fun e => h (hlen.mp e)
    unfold Parameters.Set
    simp [hl]
  refine ⟨⟨fun h => ?_, fun h => ?_⟩, hpos, hneg⟩
  · by_contra hc
    rw [hneg hc] at h
    simp [Errorf] at h
  · rw [hpos h]

/-- C8: `NetworkMode.Set(v)` returns no error if and only if the uppercased `v`
is one of `HOST`, `BRIDGE`, `NONE`, `USER`; on success the stored mode is the
uppercased `v`, on failure the receiver is unchanged.  Two inputs that differ
only in letter case succeed or fail together and leave the same mode and the
same `Mode()`; `"bridge"`, `"BRIDGE"` and `"Bridge"` all store `BRIDGE`, whose
`Mode()` is 2, and `"nope"` fails. -/
theorem NetworkMode_Set_case_insensitive (T : CaseTables) (n : NetworkMode) (v : GoString) :
    ((NetworkMode.Set T n v).2 = none ↔ ToUpper T v ∈ networkModeNames) ∧
    (ToUpper T v ∈ networkModeNames → NetworkMode.Set T n v = ({ mode := ToUpper T v }, none)) ∧
    (ToUpper T v ∉ networkModeNames → NetworkMode.Set T n v = (n, Errorf "Bad network mode: " v)) ∧
    (∀ w, differOnlyInCase v w →
      ((NetworkMode.Set T n v).2 = none ↔ (NetworkMode.Set T n w).2 = none) ∧
      (NetworkMode.Set T n v).1 = (NetworkMode.Set T n w).1 ∧
      (NetworkMode.Set T n v).1.Mode = (NetworkMode.Set T n w).1.Mode) ∧
    NetworkMode.Set T n "bridge".toList = ({ mode := "BRIDGE".toList }, none) ∧
    NetworkMode.Set T n "BRIDGE".toList = ({ mode := "BRIDGE".toList }, none) ∧
    NetworkMode.Set T n "Bridge".toList = ({ mode := "BRIDGE".toList }, none) ∧
    NetworkMode.Mode { mode := "BRIDGE".toList } = 2 ∧
    NetworkMode.Set T n "nope".toList = (n, Errorf "Bad network mode: " "nope".toList) := by
  have hpos : ∀ u : GoString, ToUpper T u ∈ networkModeNames →
      NetworkMode.Set T n u = ({ mode := ToUpper T u }, none) := by
    intro u h
    obtain ⟨m, hm⟩ := (lookup_network_isSome _).mpr h
    unfold NetworkMode.Set
    rw [hm]
  have hneg : ∀ u : GoString, ToUpper T u ∉ networkModeNames →
      NetworkMode.Set T n u = (n, Errorf "Bad network mode: " u) := by
    intro u h
    unfold NetworkMode.Set
    cases hl : ContainerInfo_DockerInfo_Network_value.lookup (ToUpper T u) with
    | none => rfl
    | some m => exact absurd ((lookup_network_isSome _).mp ⟨m, hl⟩) h
  have hiff : ∀ u : GoString, (NetworkMode.Set T n u).2 = none ↔ ToUpper T u ∈ networkModeNames := by
    intro u
    constructor
    · intro h
      by_contra hc
      rw [hneg u hc] at h
      simp [Errorf] at h
    · intro h
      rw [hpos u h]
  have hbridge : ∀ u : GoString, ToUpper T u = "BRIDGE".toList →
      NetworkMode.Set T n u = ({ mode := "BRIDGE".toList }, none) := by
    intro u hu
    have := hpos u (by rw [hu]; decide)
    rw [this, hu]
  refine ⟨hiff v, hpos v, hneg v, ?_, hbridge _ rfl, hbridge _ rfl, hbridge _ rfl, by decide, ?_⟩
  · intro w hw
    have hu := ToUpper_differOnlyInCase T v w hw
    have h1 : (NetworkMode.Set T n v).1 = (NetworkMode.Set T n w).1 := by
      by_cases hm : ToUpper T v ∈ networkModeNames
      · rw [hpos v hm, hpos w (hu ▸ hm), hu]
      · rw [hneg v hm, hneg w (hu ▸ hm)]
    refine ⟨?_, h1, by rw [h1]⟩
    rw [hiff v, hiff w, hu]
  · exact hneg _ (by
      have : ToUpper T "nope".toList = "NOPE".toList := rfl
      rw [this]; decide)

/-- C10: `Envs.Set` has the failure rule of `Parameters.Set`: on every `v` one
returns an error exactly when the other does, and when they succeed the
variable appended by `Envs.Set` has the name and value that are the key and
value of the parameter appended by `Parameters.Set`. -/
theorem Envs_Set_same_rule_as_Parameters (envs : Envs) (params : Parameters) (v : GoString) :
    ((Envs.Set envs v).2 ≠ none ↔ (Parameters.Set params v).2 ≠ none) ∧
    ((Envs.Set envs v).2 ≠ none → (Envs.Set envs v).1 = envs ∧ (Parameters.Set params v).1 = params) ∧
    ((Envs.Set envs v).2 = none →
      ∃ e p, (Envs.Set envs v).1 = envs ++ [e] ∧ (Parameters.Set params v).1 = params ++ [p] ∧
        e.Name = p.Key ∧ e.Value = p.Value) := by
  unfold Envs.Set Parameters.Set
  by_cases h : (Split v '=').length = 2
  · simp [h]
  · simp [h, Errorf]

theorem Char_eq_of_toNat_eq (a b : Char) (h : a.toNat = b.toNat) : a = b := by
  rw [← Char.ofNat_toNat a, ← Char.ofNat_toNat b, h]

theorem sameLetter_symm (a b : Char) (h : sameLetter a b) : sameLetter b a := by
  rcases h with h | h | h
  · exact Or.inl h.symm
  · exact Or.inr (Or.inr h)
  · exact Or.inr (Or.inl h)

theorem sameLetter_eq_of_not_letter (a b : Char) (h : sameLetter a b) (hb : b.toNat < 65) :
    a = b := by
  have e1 : 'A'.toNat = 65 := by decide
  rcases h with h | ⟨h1, _, h3⟩ | ⟨h1, _, _⟩
  · exact h
  · rw [e1] at h1; omega
  · rw [e1] at h1; omega

theorem not_mem_of_differOnlyInCase (c : Char) (hc : c.toNat < 65) (v w : GoString)
    (h : differOnlyInCase v w) (hw : c ∉ w) : c ∉ v := by
  unfold differOnlyInCase at h
  induction h with
  | nil => simp
  | @cons x y lx ly hab _ ih =>
    simp only [List.mem_cons, not_or] at hw ⊢
    refine ⟨fun e => hw.1 ?_, ih hw.2⟩
    have hy : y = x := sameLetter_eq_of_not_letter y x (sameLetter_symm _ _ hab) (by rw [← e]; exact hc)
    rw [hy, e]

theorem Split_three (a b c : GoString) (sep : Char) (ha : sep ∉ a) (hb : sep ∉ b) (hc : sep ∉ c) :
    Split (a ++ sep :: (b ++ sep :: c)) sep = [a, b, c] := by
  rw [Split_append a _ sep ha, Split_append b _ sep hb, Split_of_not_mem c sep hc]

/-- C11: for colon-free `HOST` and `CONTAINER` and every letter-casing `m` of
`rw`, `Volumes.Set(HOST:CONTAINER:m)` returns no error and appends the volume
`HOST` to `CONTAINER` with mode `RW`, the same result as with the mode written
`RW`; for every letter-casing of `ro` the same holds with mode `RO`. -/
theorem Volumes_Set_mode_any_case (T : CaseTables) (vols : Volumes) (host cont m : GoString)
    (hh : ':' ∉ host) (hc : ':' ∉ cont) :
    (differOnlyInCase m "rw".toList →
      Volumes.Set T vols (host ++ ':' :: (cont ++ ':' :: m)) =
        (vols ++ [{ HostPath := host, ContainerPath := cont, Mode := some RW }], none) ∧
      Volumes.Set T vols (host ++ ':' :: (cont ++ ':' :: m)) =
        Volumes.Set T vols (host ++ ':' :: (cont ++ ':' :: "RW".toList))) ∧
    (differOnlyInCase m "ro".toList →
      Volumes.Set T vols (host ++ ':' :: (cont ++ ':' :: m)) =
        (vols ++ [{ HostPath := host, ContainerPath := cont, Mode := some RO }], none) ∧
      Volumes.Set T vols (host ++ ':' :: (cont ++ ':' :: m)) =
        Volumes.Set T vols (host ++ ':' :: (cont ++ ':' :: "RO".toList))) := by
  have main : ∀ (u : GoString) (k : GoString) (md : Volume_Mode),
      (k = "RW".toList ∨ k = "RO".toList) → mapIndex Volume_Mode_value k = md →
      ToUpper T u = k → ':' ∉ u →
      Volumes.Set T vols (host ++ ':' :: (cont ++ ':' :: u)) =
        (vols ++ [{ HostPath := host, ContainerPath := cont, Mode := some md }], none) := by
    intro u k md hk hmd hu hcu
    unfold Volumes.Set
    simp only [Split_three host cont u ':' hh hc hcu, List.length_cons, List.length_nil,
      List.getD_cons_zero, List.getD_cons_succ, hu, hmd]
    rcases hk with hk | hk <;> subst hk <;> simp
  constructor
  · intro hm
    have hu : ToUpper T m = "RW".toList := ToUpper_differOnlyInCase T m _ hm
    have hcm : ':' ∉ m := not_mem_of_differOnlyInCase ':' (by decide) m _ hm (by decide)
    have r1 := main m "RW".toList RW (Or.inl rfl) (by decide) hu hcm
    have r2 := main "RW".toList "RW".toList RW (Or.inl rfl) (by decide) rfl
      (by decide)
    exact ⟨r1, r1.trans r2.symm⟩
  · intro hm
    have hu : ToUpper T m = "RO".toList := ToUpper_differOnlyInCase T m _ hm
    have hcm : ':' ∉ m := not_mem_of_differOnlyInCase ':' (by decide) m _ hm (by decide)
    have r1 := main m "RO".toList RO (Or.inr rfl) (by decide) hu hcm
    have r2 := main "RO".toList "RO".toList RO (Or.inr rfl) (by decide) rfl
      (by decide)
    exact ⟨r1, r1.trans r2.symm⟩

/-- C11 at `"host:container:rw"` and `"host:container:RW"`: both append the
same read-write volume. -/
theorem Volumes_Set_mode_any_case_witness :
    Volumes.Set asciiTables [] ("host".toList ++ ':' :: ("container".toList ++ ':' :: "rw".toList)) =
      ([] ++ [{ HostPath := "host".toList, ContainerPath := "container".toList, Mode := some RW }],
        none) ∧
    Volumes.Set asciiTables [] ("host".toList ++ ':' :: ("container".toList ++ ':' :: "rw".toList)) =
      Volumes.Set asciiTables []
        ("host".toList ++ ':' :: ("container".toList ++ ':' :: "RW".toList)) :=
  (Volumes_Set_mode_any_case asciiTables [] "host".toList "container".toList "rw".toList
    (by decide) (by decide)).1 (by
      unfold differOnlyInCase
      exact .cons (Or.inl rfl) (.cons (Or.inl rfl) .nil))

/-- C12: when `v` holds no `=` or holds two or more, `Parameters.Set(v)` and
`Envs.Set(v)` both return their error and leave their list as it was. -/
theorem Set_rejects_zero_or_many_eq (params : Parameters) (envs : Envs) (v : GoString)
    (h : v.count '=' = 0 ∨ 2 ≤ v.count '=') :
    Parameters.Set params v = (params, Errorf "Bad Docker parameter " v) ∧
    Envs.Set envs v = (envs, Errorf "Bad environment variable " v) := by
  have hl : (Split v '=').length ≠ 2 := by
    rw [Split_length]; omega
  unfold Parameters.Set Envs.Set
  simp [hl]

/-- C12 at `"badformat"` (no `=`) and at `"a=b=c"` (two `=`). -/
theorem Set_rejects_zero_or_many_eq_witness :
    (Parameters.Set [] "badformat".toList = ([], Errorf "Bad Docker parameter " "badformat".toList) ∧
      Envs.Set [] "badformat".toList = ([], Errorf "Bad environment variable " "badformat".toList)) ∧
    (Parameters.Set [] "a=b=c".toList = ([], Errorf "Bad Docker parameter " "a=b=c".toList) ∧
      Envs.Set [] "a=b=c".toList = ([], Errorf "Bad environment variable " "a=b=c".toList)) :=
  ⟨Set_rejects_zero_or_many_eq [] [] "badformat".toList (Or.inl (by decide)),
   Set_rejects_zero_or_many_eq [] [] "a=b=c".toList (Or.inr (by decide))⟩

theorem PortMappings_Set_cases (T : CaseTables) (L : PortMappings) (v : GoString) :
    PortMappings.Set T L v = (L, Errorf "Bad port mapping " v) ∨
    ∃ x, PortMappings.Set T L v = (L ++ [x], none) := by
  unfold PortMappings.Set
  simp only []
  generalize ParseUint ((Split v ':').getD 0 []) 0 32 = ph
  generalize ParseUint ((Split ((Split v ':').getD 1 []) '/').getD 0 []) 0 32 = pc
  generalize ToLower T ((Split ((Split v ':').getD 1 []) '/').getD 1 []) = pr
  generalize (Split ((Split v ':').getD 1 []) '/').length = n2
  generalize (Split v ':').length = n1
  by_cases h1 : n1 = 2
  · rw [if_neg (not_not.mpr h1)]
    cases ph with
    | error e => exact Or.inl rfl
    | ok host =>
      cases pc with
      | error e =>
        left
        simp only []
        by_cases h2 : n2 = 2
        · rw [if_pos h2]
          split <;> rfl
        · rw [if_neg h2]
      | ok cont =>
        simp only []
        by_cases h2 : n2 = 2
        · rw [if_pos h2]
          by_cases h3 : pr = "tcp".toList ∨ pr = "udp".toList
          · rw [if_neg (not_not.mpr h3)]
            exact Or.inr ⟨_, rfl⟩
          · rw [if_pos h3]
            exact Or.inl rfl
        · rw [if_neg h2]
          exact Or.inr ⟨_, rfl⟩
  · rw [if_pos h1]
    exact Or.inl rfl

theorem Volumes_Set_cases (T : CaseTables) (L : Volumes) (v : GoString) :
    Volumes.Set T L v = (L, Errorf "Bad volume: " v) ∨
    ∃ x, Volumes.Set T L v = (L ++ [x], none) := by
  unfold Volumes.Set
  simp only []
  generalize ToUpper T ((Split v ':').getD 2 []) = md
  generalize (Split v ':').getD 0 [] = hp
  generalize (Split v ':').getD 1 [] = cp
  generalize (Split v ':').length = n1
  by_cases h1 : n1 < 2
  · rw [if_pos h1]
    exact Or.inl rfl
  · rw [if_neg h1]
    by_cases h2 : n1 = 3
    · rw [if_pos h2]
      by_cases h3 : md = "RW".toList ∨ md = "RO".toList
      · rw [if_neg (not_not.mpr h3)]
        exact Or.inr ⟨_, rfl⟩
      · rw [if_pos h3]
        exact Or.inl rfl
    · rw [if_neg h2]
      exact Or.inr ⟨_, rfl⟩

/-- C16: whenever `Set(v)` of `PortMappings`, `Volumes`, `Parameters` or `Envs`
returns an error the list after the call is the list before it, and whenever
`NetworkMode.Set(v)` returns an error the stored mode is the one before the
call; the initial `BRIDGE` survives `--net nope`. -/
theorem Set_error_leaves_receiver (T : CaseTables) (v : GoString) :
    (∀ L : PortMappings, (PortMappings.Set T L v).2 ≠ none → (PortMappings.Set T L v).1 = L) ∧
    (∀ L : Volumes, (Volumes.Set T L v).2 ≠ none → (Volumes.Set T L v).1 = L) ∧
    (∀ L : Parameters, (Parameters.Set L v).2 ≠ none → (Parameters.Set L v).1 = L) ∧
    (∀ L : Envs, (Envs.Set L v).2 ≠ none → (Envs.Set L v).1 = L) ∧
    (∀ n : NetworkMode, (NetworkMode.Set T n v).2 ≠ none → (NetworkMode.Set T n v).1 = n) ∧
    (NetworkMode.Set T initialNetworkMode "nope".toList).2 ≠ none ∧
    (NetworkMode.Set T initialNetworkMode "nope".toList).1 = initialNetworkMode := by
  refine ⟨?_, ?_, ?_, ?_, ?_, ?_, ?_⟩
  · intro L h
    rcases PortMappings_Set_cases T L v with e | ⟨x, e⟩
    · rw [e]
    · rw [e] at h; exact absurd rfl h
  · intro L h
    rcases Volumes_Set_cases T L v with e | ⟨x, e⟩
    · rw [e]
    · rw [e] at h; exact absurd rfl h
  · intro L h
    unfold Parameters.Set at h ⊢
    simp only [] at h ⊢
    split
    · rfl
    · rw [if_neg (by assumption)] at h
      exact absurd rfl h
  · intro L h
    unfold Envs.Set at h ⊢
    simp only [] at h ⊢
    split
    · rfl
    · rw [if_neg (by assumption)] at h
      exact absurd rfl h
  · intro n h
    unfold NetworkMode.Set at h ⊢
    split
    · rfl
    · rename_i m hm
      rw [hm] at h
      exact absurd rfl h
  · have : NetworkMode.Set T initialNetworkMode "nope".toList =
        (initialNetworkMode, Errorf "Bad network mode: " "nope".toList) := rfl
    rw [this]; simp [Errorf]
  · rfl

theorem NetworkMode_Set_fst (T : CaseTables) (n : NetworkMode) (v : GoString) :
    (NetworkMode.Set T n v).1 =
      if ToUpper T v ∈ networkModeNames then { mode := ToUpper T v } else n := by
  unfold NetworkMode.Set
  cases hl : ContainerInfo_DockerInfo_Network_value.lookup (ToUpper T v) with
  | none =>
    have : ToUpper T v ∉ networkModeNames := fun hm => by
      obtain ⟨m, hm⟩ := (lookup_network_isSome _).mpr hm
      rw [hl] at hm
      cases hm
    rw [if_neg this]
  | some m =>
    rw [if_pos ((lookup_network_isSome _).mp ⟨m, hl⟩)]

theorem SetAll_append (T : CaseTables) (n : NetworkMode) (vs : List GoString) (v : GoString) :
    NetworkMode.SetAll T n (vs ++ [v]) = (NetworkMode.Set T (NetworkMode.SetAll T n vs) v).1 := by
  simp [NetworkMode.SetAll, List.foldl_append]

theorem SetAll_mode (T : CaseTables) (vs : List GoString) :
    (NetworkMode.SetAll T initialNetworkMode vs).mode = lastAcceptedMode T vs := by
  induction vs using List.reverseRecOn with
  | nil => rfl
  | append_singleton vs v ih =>
    rw [SetAll_append, NetworkMode_Set_fst]
    unfold lastAcceptedMode at ih ⊢
    rw [List.reverse_append, List.reverse_singleton, List.singleton_append, List.find?_cons]
    by_cases hv : ToUpper T v ∈ networkModeNames
    · rw [if_pos hv]
      simp only [hv, decide_True]
    · rw [if_neg hv, ih]
      simp only [hv, decide_False]

theorem lastAcceptedMode_mem (T : CaseTables) (vs : List GoString) :
    lastAcceptedMode T vs ∈ networkModeNames := by
  unfold lastAcceptedMode
  cases hf : vs.reverse.find? (fun v => decide (ToUpper T v ∈ networkModeNames)) with
  | none => exact (by decide : "BRIDGE".toList ∈ networkModeNames)
  | some v =>
    have := List.find?_some hf
    simpa using this

/-- C17: from the initial `{mode: "BRIDGE"}`, after any finite sequence of
`NetworkMode.Set` calls the stored mode is one of the keys `HOST`, `BRIDGE`,
`NONE`, `USER` of the network-mode table and is its own uppercase form, the
lookup of `Mode()` finds it, and `Mode()` is the table's number for the last
value that `Set` accepted, for `BRIDGE` when none was accepted. -/
theorem NetworkMode_SetAll_invariant (T : CaseTables) (vs : List GoString) :
    (NetworkMode.SetAll T initialNetworkMode vs).mode ∈ networkModeNames ∧
    ToUpper T (NetworkMode.SetAll T initialNetworkMode vs).mode =
      (NetworkMode.SetAll T initialNetworkMode vs).mode ∧
    (∃ m, ContainerInfo_DockerInfo_Network_value.lookup
        (NetworkMode.SetAll T initialNetworkMode vs).mode = some m ∧
      (NetworkMode.SetAll T initialNetworkMode vs).Mode = m) ∧
    (NetworkMode.SetAll T initialNetworkMode vs).mode = lastAcceptedMode T vs ∧
    (NetworkMode.SetAll T initialNetworkMode vs).Mode =
      mapIndex ContainerInfo_DockerInfo_Network_value (lastAcceptedMode T vs) ∧
    (NetworkMode.SetAll T initialNetworkMode []).Mode = 2 ∧
    (NetworkMode.SetAll T initialNetworkMode ["host".toList, "nope".toList]).Mode = 1 := by
  have hmode := SetAll_mode T vs
  have hmem : (NetworkMode.SetAll T initialNetworkMode vs).mode ∈ networkModeNames := by
    rw [hmode]; exact lastAcceptedMode_mem T vs
  refine ⟨hmem, ?_, ?_, hmode, ?_, rfl, ?_⟩
  · generalize (NetworkMode.SetAll T initialNetworkMode vs).mode = k at hmem
    simp only [networkModeNames, List.mem_cons, List.mem_singleton, List.not_mem_nil,
      or_false] at hmem
    rcases hmem with h | h | h | h <;> subst h <;> rfl
  · obtain ⟨m, hm⟩ := (lookup_network_isSome _).mpr hmem
    exact ⟨m, hm, by simp [NetworkMode.Mode, mapIndex, hm]⟩
  · rw [NetworkMode.Mode, hmode]
  · have h1 := SetAll_mode T ["host".toList, "nope".toList]
    have h2 : lastAcceptedMode T ["host".toList, "nope".toList] = "HOST".toList := by
      unfold lastAcceptedMode
      have e1 : ToUpper T "nope".toList = "NOPE".toList := rfl
      have e2 : ToUpper T "host".toList = "HOST".toList := rfl
      simp only [List.reverse_cons, List.reverse_nil, List.nil_append, List.singleton_append,
        List.find?_cons, e1, e2]
      rfl
    rw [NetworkMode.Mode, h1, h2]
    rfl

theorem before_append_after (sep : Char) (v : GoString) (h : sep ∈ v) :
    before sep v ++ sep :: after sep v = v := by
  induction v with
  | nil => simp at h
  | cons c cs ih =>
    by_cases hc : c = sep
    · subst hc
      simp [before, after]
    · have hm : sep ∈ cs := by
        rcases List.mem_cons.mp h with e | e
        · exact absurd e.symm hc
        · exact e
      have := ih hm
      simp only [before, after, List.takeWhile_cons, List.dropWhile_cons] at this ⊢
      simp only [bne_iff_ne, ne_eq, hc, not_false_eq_true, decide_True, ite_true,
        List.cons_append]
      rw [this]

/-- C18: when `Parameters.Set` accepts `v` on the empty list,
`Parameters.String` of the list it leaves is exactly `v`; the same holds for
`Envs.Set` and `Envs.String`. -/
theorem String_after_Set_is_input (v : GoString) :
    ((Parameters.Set [] v).2 = none → Parameters.String (Parameters.Set [] v).1 = v) ∧
    ((Envs.Set [] v).2 = none → Envs.String (Envs.Set [] v).1 = v) := by
  have key : (Split v '=').length = 2 → before '=' v ++ '=' :: after '=' v = v := by
    intro hl
    rw [Split_length] at hl
    exact before_append_after '=' v (List.count_pos_iff.mp (by omega))
  constructor
  · intro h
    unfold Parameters.Set at h ⊢
    by_cases hl : (Split v '=').length = 2
    · have e := key hl
      rw [if_neg (not_not.mpr hl), Split_two v '=' hl]
      simpa [Parameters.String] using e
    · simp [hl, Errorf] at h
  · intro h
    unfold Envs.Set at h ⊢
    by_cases hl : (Split v '=').length = 2
    · have e := key hl
      rw [if_neg (not_not.mpr hl), Split_two v '=' hl]
      simpa [Envs.String] using e
    · simp [hl, Errorf] at h

/-- C18 at `"a=b"`, which both `Set` functions accept. -/
theorem String_after_Set_is_input_witness :
    Parameters.String (Parameters.Set [] "a=b".toList).1 = "a=b".toList ∧
    Envs.String (Envs.Set [] "a=b".toList).1 = "a=b".toList :=
  ⟨(String_after_Set_is_input "a=b".toList).1 (by decide),
   (String_after_Set_is_input "a=b".toList).2 (by decide)⟩

theorem digitVal_of_digit (c : Char) (h : isDecimalDigit c) :
    c ≠ '_' ∧ digitVal c = some (c.toNat - '0'.toNat) ∧ c.toNat - '0'.toNat < 10 := by
  have e0 : '0'.toNat = 48 := by decide
  have e9 : '9'.toNat = 57 := by decide
  obtain ⟨h1, h2⟩ := h
  refine ⟨?_, ?_, ?_⟩
  · intro e
    rw [e, e9] at h2
    exact absurd h2 (by decide)
  · unfold digitVal
    rw [if_pos ⟨h1, h2⟩]
  · rw [e0] at h1 ⊢; rw [e9] at h2; omega

theorem foldl_decimal_ge (cs : GoString) :
    ∀ n : Nat, n ≤ cs.foldl (fun n c => 10 * n + (c.toNat - '0'.toNat)) n := by
  induction cs with
  | nil => intro n; exact Nat.le_refl n
  | cons c cs ih =>
    intro n
    simp only [List.foldl_cons]
    exact Nat.le_trans (by omega) (ih _)

theorem parseLoop_digits (b0 : Bool) (cutoff maxVal : Nat) (hcut : maxVal < cutoff)
    (hmax : 10 * maxVal + 9 < 2 ^ 64) (cs : GoString) :
    ∀ (n : Nat) (us : Bool), (∀ c ∈ cs, isDecimalDigit c) →
      cs.foldl (fun n c => 10 * n + (c.toNat - '0'.toNat)) n ≤ maxVal →
      parseLoop 10 b0 cutoff maxVal cs n us =
        .ok (cs.foldl (fun n c => 10 * n + (c.toNat - '0'.toNat)) n, us) := by
  induction cs with
  | nil => intro n us _ _; rfl
  | cons c cs ih =>
    intro n us hd hv
    obtain ⟨hne, hdv, hlt⟩ := digitVal_of_digit c (hd c (List.mem_cons_self _ _))
    simp only [List.foldl_cons] at hv ⊢
    have h1 := foldl_decimal_ge cs (10 * n + (c.toNat - '0'.toNat))
    have hn1 : 10 * n + (c.toNat - '0'.toNat) ≤ maxVal := Nat.le_trans h1 hv
    have hn : n ≤ maxVal := by omega
    have e1 : (n * 10) % 2 ^ 64 = 10 * n := by
      rw [Nat.mod_eq_of_lt (by omega)]; omega
    have e2 : (10 * n + (c.toNat - '0'.toNat)) % 2 ^ 64 = 10 * n + (c.toNat - '0'.toNat) :=
      Nat.mod_eq_of_lt (by omega)
    unfold parseLoop
    rw [if_neg (fun h => hne h.1), hdv]
    simp only []
    rw [if_neg (by omega), if_neg (by omega), e1, e2, if_neg (by omega)]
    exact ih _ _ (fun c hc => hd c (List.mem_cons_of_mem _ hc)) hv

theorem baseOf_not_zero (s : GoString) :
    s.head? ≠ some '0' →
    (match s with
      | '0' :: c1 :: rest =>
        if 3 ≤ s.length ∧ c1.toNat < 0x80 ∧ (c1.toNat ||| 0x20) = 'b'.toNat then (2, rest)
        else if 3 ≤ s.length ∧ c1.toNat < 0x80 ∧ (c1.toNat ||| 0x20) = 'o'.toNat then (8, rest)
        else if 3 ≤ s.length ∧ c1.toNat < 0x80 ∧ (c1.toNat ||| 0x20) = 'x'.toNat then (16, rest)
        else (8, c1 :: rest)
      | '0' :: rest => (8, rest)
      | _ => ((10 : Nat), s)) = (10, s) := by
  split
  · intro hz; simp at hz
  · intro hz; simp at hz
  · intro _; rfl

theorem ParseUint_base10 (s : GoString) (bitSize : Nat) (hne : s ≠ [])
    (hz : s.head? ≠ some '0') :
    ParseUint s 0 bitSize =
      match parseLoop 10 true ((2 ^ 64 - 1) / 10 + 1) (2 ^ bitSize - 1) s 0 false with
      | .error e => .error e
      | .ok (n, underscores) =>
        if underscores = true ∧ underscoreOK s = false then .error .invalid else .ok n := by
  unfold ParseUint
  rw [if_neg hne]
  simp only [if_true, decide_True]
  rw [baseOf_not_zero s hz]

theorem ParseUint_decimal (s : GoString) (hs : isDigitString s) (hz : noLeadingZero s)
    (hv : decimalValue s < 2 ^ 32) : ParseUint s 0 32 = .ok (decimalValue s) := by
  rcases hz with hz | hz
  · subst hz; decide
  · have hloop := parseLoop_digits true ((2 ^ 64 - 1) / 10 + 1) (2 ^ 32 - 1) (by decide)
      (by decide) s 0 false hs.2 (by unfold decimalValue at hv; omega)
    rw [ParseUint_base10 s 32 hs.1 hz, hloop]
    simp [decimalValue]

theorem digit_ne_of_lt (sep : Char) (hsep : sep.toNat < 48) (s : GoString)
    (hs : ∀ c ∈ s, isDecimalDigit c) : sep ∉ s := by
  intro hm
  have h := (hs sep hm).1
  have e0 : '0'.toNat = 48 := by decide
  rw [e0] at h
  omega

theorem colon_not_mem_digits (s : GoString) (hs : ∀ c ∈ s, isDecimalDigit c) : ':' ∉ s := by
  intro hm
  have h := (hs ':' hm).2
  exact absurd h (by decide)

/-- C14, as stated, fails: `010` and `080` are non-empty digit strings with the
decimal values 10 and 80, yet `PortMappings.Set` rejects `"010:080"`, and on
`"010:010"` it stores the ports 8 and 8, the digits read as octal. -/
theorem PortMappings_Set_leading_zero_counterexample :
    isDigitString "010".toList ∧ isDigitString "080".toList ∧
    decimalValue "010".toList = 10 ∧ decimalValue "080".toList = 80 ∧
    PortMappings.Set asciiTables [] "010:080".toList =
      ([], Errorf "Bad port mapping " "010:080".toList) ∧
    PortMappings.Set asciiTables [] "010:010".toList =
      ([{ HostPort := 8, ContainerPort := 8, Protocol := none }], none) := by
  decide

/-- C14, amended: for non-empty decimal digit strings `HOST` and `CONTAINER`
written without a leading zero (`0` itself is allowed) whose decimal values are
below `2^32`, `PortMappings.Set("HOST:CONTAINER")` returns no error and appends
the mapping whose host and container ports are exactly those decimal values,
with no protocol. -/
theorem PortMappings_Set_decimal (T : CaseTables) (L : PortMappings) (host cont : GoString)
    (hh : isDigitString host) (hc : isDigitString cont)
    (zh : noLeadingZero host) (zc : noLeadingZero cont)
    (vh : decimalValue host < 2 ^ 32) (vc : decimalValue cont < 2 ^ 32) :
    PortMappings.Set T L (host ++ ':' :: cont) =
      (L ++ [{ HostPort := decimalValue host, ContainerPort := decimalValue cont,
               Protocol := none }], none) := by
  have s1 : Split (host ++ ':' :: cont) ':' = [host, cont] := by
    rw [Split_append host cont ':' (colon_not_mem_digits host hh.2),
      Split_of_not_mem cont ':' (colon_not_mem_digits cont hc.2)]
  have s2 : Split cont '/' = [cont] :=
    Split_of_not_mem cont '/' (digit_ne_of_lt '/' (by decide) cont hc.2)
  unfold PortMappings.Set
  simp only [s1, s2, List.length_cons, List.length_nil, List.getD_cons_zero,
    List.getD_cons_succ, ParseUint_decimal host hh zh vh, ParseUint_decimal cont hc zc vc,
    Nat.mod_eq_of_lt vh, Nat.mod_eq_of_lt vc]
  simp

/-- C14, amended, at `"8080:80"` and at `"0:4294967295"`. -/
theorem PortMappings_Set_decimal_witness :
    PortMappings.Set asciiTables [] ("8080".toList ++ ':' :: "80".toList) =
      ([] ++ [{ HostPort := decimalValue "8080".toList, ContainerPort := decimalValue "80".toList,
                Protocol := none }], none) ∧
    PortMappings.Set asciiTables [] ("0".toList ++ ':' :: "4294967295".toList) =
      ([] ++ [{ HostPort := decimalValue "0".toList,
                ContainerPort := decimalValue "4294967295".toList, Protocol := none }], none) :=
  ⟨PortMappings_Set_decimal asciiTables [] "8080".toList "80".toList (by decide) (by decide)
      (by decide) (by decide) (by decide) (by decide),
   PortMappings_Set_decimal asciiTables [] "0".toList "4294967295".toList (by decide) (by decide)
      (by decide) (by decide) (by decide) (by decide)⟩

theorem digitChar_digit (d : Nat) (h : d < 10) :
    isDecimalDigit (Nat.digitChar d) ∧ (Nat.digitChar d).toNat - '0'.toNat = d ∧
      (d ≠ 0 → Nat.digitChar d ≠ '0') := by
  interval_cases d <;> decide

theorem foldl_decimal_shift (s : GoString) :
    ∀ a : Nat, s.foldl (fun n c => 10 * n + (c.toNat - '0'.toNat)) a =
      a * 10 ^ s.length + decimalValue s := by
  unfold decimalValue
  induction s with
  | nil => intro a; simp
  | cons c cs ih =>
    intro a
    simp only [List.foldl_cons, List.length_cons]
    rw [ih (10 * a + (c.toNat - '0'.toNat)), ih (10 * 0 + (c.toNat - '0'.toNat))]
    ring

theorem decimalValue_cons (c : Char) (s : GoString) :
    decimalValue (c :: s) = (c.toNat - '0'.toNat) * 10 ^ s.length + decimalValue s := by
  have := foldl_decimal_shift s (10 * 0 + (c.toNat - '0'.toNat))
  simp only [Nat.mul_zero, Nat.zero_add] at this
  simpa [decimalValue] using this

theorem toDigitsCore_digits (fuel : Nat) :
    ∀ (n : Nat) (ds : List Char), (∀ c ∈ ds, isDecimalDigit c) →
      ∀ c ∈ Nat.toDigitsCore 10 fuel n ds, isDecimalDigit c := by
  induction fuel with
  | zero => intro n ds hds; simpa [Nat.toDigitsCore] using hds
  | succ fuel ih =>
    intro n ds hds
    have hd := (digitChar_digit (n % 10) (Nat.mod_lt _ (by decide))).1
    have hcons : ∀ c ∈ Nat.digitChar (n % 10) :: ds, isDecimalDigit c := by
      intro c hc
      rcases List.mem_cons.mp hc with e | e
      · rw [e]; exact hd
      · exact hds c e
    simp only [Nat.toDigitsCore]
    split
    · exact hcons
    · exact ih _ _ hcons

theorem toDigitsCore_value (fuel : Nat) :
    ∀ (n : Nat) (ds : List Char), n < fuel →
      decimalValue (Nat.toDigitsCore 10 fuel n ds) = n * 10 ^ ds.length + decimalValue ds := by
  induction fuel with
  | zero => intro n ds h; omega
  | succ fuel ih =>
    intro n ds h
    have hd := (digitChar_digit (n % 10) (Nat.mod_lt _ (by decide))).2.1
    simp only [Nat.toDigitsCore]
    split
    · rename_i h0
      rw [decimalValue_cons, hd]
      have : n % 10 = n := by omega
      rw [this]
    · rename_i h0
      rw [ih (n / 10) _ (by omega), decimalValue_cons, hd, List.length_cons, Nat.pow_succ]
      have hn : n = 10 * (n / 10) + n % 10 := (Nat.div_add_mod n 10).symm
      generalize n / 10 = q at hn ⊢
      generalize n % 10 = r at hn ⊢
      subst hn
      ring

theorem toDigitsCore_head (fuel : Nat) :
    ∀ (n : Nat) (ds : List Char), n < fuel → 0 < n →
      (Nat.toDigitsCore 10 fuel n ds).head? ≠ some '0' := by
  induction fuel with
  | zero => intro n ds h; omega
  | succ fuel ih =>
    intro n ds h hpos
    simp only [Nat.toDigitsCore]
    split
    · rename_i h0
      have hne := (digitChar_digit (n % 10) (Nat.mod_lt _ (by decide))).2.2 (by omega)
      simpa using hne
    · rename_i h0
      exact ih (n / 10) _ (by omega) (by omega)

theorem toDigitsCore_ne_nil (fuel n : Nat) (ds : List Char) :
    Nat.toDigitsCore 10 (fuel + 1) n ds ≠ [] := by
  induction fuel generalizing n ds with
  | zero =>
    simp only [Nat.toDigitsCore]
    split <;> simp
  | succ fuel ih =>
    rw [Nat.toDigitsCore]
    split
    · simp
    · exact ih _ _

theorem fmtD_spec (n : Nat) :
    isDigitString (fmtD n) ∧ noLeadingZero (fmtD n) ∧ decimalValue (fmtD n) = n := by
  unfold fmtD Nat.toDigits
  refine ⟨⟨toDigitsCore_ne_nil n n [], toDigitsCore_digits _ _ _ (by simp)⟩, ?_, ?_⟩
  · by_cases h : n = 0
    · subst h; exact Or.inl rfl
    · exact Or.inr (toDigitsCore_head _ _ _ (by omega) (by omega))
  · rw [toDigitsCore_value _ _ _ (by omega)]
    simp [decimalValue]

theorem ParseUint_fmtD (n : Nat) (h : n < 2 ^ 32) : ParseUint (fmtD n) 0 32 = .ok n := by
  obtain ⟨h1, h2, h3⟩ := fmtD_spec n
  have := ParseUint_decimal (fmtD n) h1 h2 (by rw [h3]; exact h)
  rw [h3] at this
  exact this

theorem unicodeToLower_sameLetter (T : CaseTables) (a b : Char) (h : sameLetter a b) :
    unicodeToLower T a = unicodeToLower T b := by
  have key : ∀ x y : Char, 'A'.toNat ≤ x.toNat → x.toNat ≤ 'Z'.toNat → y.toNat = x.toNat + 32 →
      unicodeToLower T x = unicodeToLower T y := by
    intro x y h1 h2 h3
    have e1 : 'A'.toNat = 65 := by decide
    have e2 : 'Z'.toNat = 90 := by decide
    have e3 : 'a'.toNat = 97 := by decide
    rw [e1] at h1
    rw [e2] at h2
    unfold unicodeToLower
    rw [e1, e2, e3]
    rw [if_pos (by omega), if_pos (by omega), if_pos (by omega), if_neg (by omega)]
    have : x.toNat + (97 - 65) = y.toNat := by omega
    rw [this, Char.ofNat_toNat]
  rcases h with h | ⟨h1, h2, h3⟩ | ⟨h1, h2, h3⟩
  · rw [h]
  · exact key a b h1 h2 h3
  · exact (key b a h1 h2 h3).symm

theorem ToLower_differOnlyInCase (T : CaseTables) (v w : GoString) (h : differOnlyInCase v w) :
    ToLower T v = ToLower T w := by
  unfold differOnlyInCase at h
  induction h with
  | nil => rfl
  | cons hab _ ih =>
    simp only [ToLower, List.map_cons, List.cons.injEq] at ih ⊢
    exact ⟨unicodeToLower_sameLetter T _ _ hab, ih⟩

theorem isProtocolName_facts (T : CaseTables) (p : GoString) (h : isProtocolName p) :
    (ToLower T p = "tcp".toList ∨ ToLower T p = "udp".toList) ∧ '/' ∉ p ∧ p ≠ [] := by
  rcases h with h | h
  · refine ⟨Or.inl (ToLower_differOnlyInCase T p _ h),
      not_mem_of_differOnlyInCase '/' (by decide) p _ h (by decide), ?_⟩
    intro e; subst e; cases h
  · refine ⟨Or.inr (ToLower_differOnlyInCase T p _ h),
      not_mem_of_differOnlyInCase '/' (by decide) p _ h (by decide), ?_⟩
    intro e; subst e; cases h

theorem mem_of_after_ne_nil (sep : Char) (v : GoString) (h : after sep v ≠ []) : sep ∈ v := by
  by_contra hn
  apply h
  unfold after
  have : v.dropWhile (fun c => c != sep) = [] := by
    rw [List.dropWhile_eq_nil_iff]
    intro c hc
    have : c ≠ sep := fun e => hn (e ▸ hc)
    simpa using this
  rw [this]; rfl

theorem not_mem_before (sep : Char) (v : GoString) : sep ∉ before sep v := by
  intro hm
  have := List.mem_takeWhile_imp hm
  simp at this

theorem Split_with_suffix (sep : Char) (v : GoString) (hne : after sep v ≠ [])
    (hno : sep ∉ after sep v) : Split v sep = [before sep v, after sep v] := by
  have hv := before_append_after sep v (mem_of_after_ne_nil sep v hne)
  have := Split_append (before sep v) (after sep v) sep (not_mem_before sep v)
  rw [hv, Split_of_not_mem _ _ hno] at this
  exact this

theorem PortMappings_Set_with_suffix (T : CaseTables) (L : PortMappings) (v a b c p : GoString)
    (s1 : Split v ':' = [a, b]) (s2 : Split b '/' = [c, p])
    (hlow : ToLower T p = "tcp".toList ∨ ToLower T p = "udp".toList) :
    PortMappings.Set T L v =
      match ParseUint a 0 32, ParseUint c 0 32 with
      | .ok h, .ok k =>
        (L ++ [{ HostPort := h % 2 ^ 32, ContainerPort := k % 2 ^ 32,
                 Protocol := some (ToLower T p) }], none)
      | _, _ => (L, Errorf "Bad port mapping " v) := by
  unfold PortMappings.Set
  simp only [s1, s2, List.length_cons, List.length_nil, List.getD_cons_zero,
    List.getD_cons_succ]
  rw [if_neg (by decide)]
  cases ParseUint a 0 32 with
  | error e => rfl
  | ok h =>
    simp only []
    rw [if_pos (by decide), if_neg (not_not.mpr hlow)]
    cases ParseUint c 0 32 with
    | error e => rfl
    | ok k => rfl

theorem PortMappings_Set_rendered (T : CaseTables) (h c : Nat) (p : GoString)
    (hh : h < 2 ^ 32) (hc : c < 2 ^ 32) (hp : p = "tcp".toList ∨ p = "udp".toList) :
    PortMappings.Set T [] (fmtD h ++ ":".toList ++ fmtD c ++ "/".toList ++ p) =
      ([{ HostPort := h, ContainerPort := c, Protocol := some p }], none) := by
  obtain ⟨⟨_, dh⟩, _, _⟩ := fmtD_spec h
  obtain ⟨⟨_, dc⟩, _, _⟩ := fmtD_spec c
  have e : fmtD h ++ ":".toList ++ fmtD c ++ "/".toList ++ p =
      fmtD h ++ ':' :: (fmtD c ++ '/' :: p) := by simp
  have pl : ToLower T p = p := by rcases hp with hp | hp <;> subst hp <;> rfl
  have pc : ':' ∉ p := by rcases hp with hp | hp <;> subst hp <;> decide
  have ps : '/' ∉ p := by rcases hp with hp | hp <;> subst hp <;> decide
  have c1 : ':' ∉ fmtD c ++ '/' :: p := by
    simp only [List.mem_append, List.mem_cons, not_or]
    exact ⟨colon_not_mem_digits _ dc, by decide, pc⟩
  have s1 : Split (fmtD h ++ ':' :: (fmtD c ++ '/' :: p)) ':' = [fmtD h, fmtD c ++ '/' :: p] := by
    rw [Split_append _ _ ':' (colon_not_mem_digits _ dh), Split_of_not_mem _ ':' c1]
  have s2 : Split (fmtD c ++ '/' :: p) '/' = [fmtD c, p] := by
    rw [Split_append _ _ '/' (digit_ne_of_lt '/' (by decide) _ dc), Split_of_not_mem _ '/' ps]
  rw [e, PortMappings_Set_with_suffix T [] _ _ _ _ _ s1 s2 (by rw [pl]; exact hp),
    ParseUint_fmtD h hh, ParseUint_fmtD c hc]
  simp only [pl, Nat.mod_eq_of_lt hh, Nat.mod_eq_of_lt hc, List.nil_append]

/-- C15: when `PortMappings.Set` accepts on the empty list an input
`HOST:CONTAINER/PROTO` whose `PROTO`, the text after the first `/`, is `tcp` or
`udp` in any letter case, it leaves one mapping whose protocol is the lowercased
`PROTO`; `PortMappings.String` of that list returns a string, and
`PortMappings.Set` accepts that string on the empty list and leaves the same
mapping. -/
theorem PortMappings_Set_String_roundtrip (T : CaseTables) (v : GoString)
    (hproto : isProtocolName (after '/' (after ':' v)))
    (hok : (PortMappings.Set T [] v).2 = none) :
    ∃ m s, (PortMappings.Set T [] v).1 = [m] ∧
      m.Protocol = some (ToLower T (after '/' (after ':' v))) ∧
      (m.Protocol = some "tcp".toList ∨ m.Protocol = some "udp".toList) ∧
      PortMappings.String (PortMappings.Set T [] v).1 = some s ∧
      PortMappings.Set T [] s = ([m], none) := by
  obtain ⟨hlow, hslash, hne⟩ := isProtocolName_facts T _ hproto
  have s2 := Split_with_suffix '/' (after ':' v) hne hslash
  by_cases hl : (Split v ':').length = 2
  · have s1 := Split_two v ':' hl
    have hset := PortMappings_Set_with_suffix T [] v _ _ _ _ s1 s2 hlow
    cases hh : ParseUint (before ':' v) 0 32 with
    | error e =>
      rw [hset, hh] at hok
      simp [Errorf] at hok
    | ok host =>
      cases hc : ParseUint (before '/' (after ':' v)) 0 32 with
      | error e =>
        rw [hset, hh, hc] at hok
        simp [Errorf] at hok
      | ok cont =>
        have b1 := ParseUint_lt _ _ _ hh
        have b2 := ParseUint_lt _ _ _ hc
        rw [hh, hc] at hset
        simp only [Nat.mod_eq_of_lt b1, Nat.mod_eq_of_lt b2, List.nil_append] at hset
        refine ⟨_, fmtD host ++ ":".toList ++ fmtD cont ++ "/".toList ++
          ToLower T (after '/' (after ':' v)), by rw [hset], rfl, ?_, ?_, ?_⟩
        · rcases hlow with e | e
          · exact Or.inl (by rw [e])
          · exact Or.inr (by rw [e])
        · rw [hset]
          simp [PortMappings.String, List.foldlM]
        · exact PortMappings_Set_rendered T host cont _ b1 b2 hlow
  · unfold PortMappings.Set at hok
    simp only [] at hok
    rw [if_pos hl] at hok
    simp [Errorf] at hok

/-- C15 at `"0x50:80/TCP"`: the mapping 80 to 80 with protocol `tcp` is rendered
and read back. -/
theorem PortMappings_Set_String_roundtrip_witness :
    ∃ m s, (PortMappings.Set asciiTables [] "0x50:80/TCP".toList).1 = [m] ∧
      m.Protocol = some (ToLower asciiTables (after '/' (after ':' "0x50:80/TCP".toList))) ∧
      (m.Protocol = some "tcp".toList ∨ m.Protocol = some "udp".toList) ∧
      PortMappings.String (PortMappings.Set asciiTables [] "0x50:80/TCP".toList).1 = some s ∧
      PortMappings.Set asciiTables [] s = ([m], none) :=
  PortMappings_Set_String_roundtrip asciiTables "0x50:80/TCP".toList
    (Or.inl (by
      unfold differOnlyInCase
      exact .cons (Or.inr (Or.inl (by decide)))
        (.cons (Or.inr (Or.inl (by decide))) (.cons (Or.inr (Or.inl (by decide))) .nil))))
    (by decide)

theorem Set_of_one_eq (v : GoString) (h : v.count '=' = 1) :
    (∀ L : Envs, Envs.Set L v =
      (L ++ [{ Name := before '=' v, Value := after '=' v }], none)) ∧
    (∀ L : Parameters, Parameters.Set L v =
      (L ++ [{ Key := before '=' v, Value := after '=' v }], none)) := by
  have hl : (Split v '=').length = 2 := by rw [Split_length]; omega
  have hs := Split_two v '=' hl
  constructor
  · intro L
    unfold Envs.Set
    simp [hs]
  · intro L
    unfold Parameters.Set
    simp [hs]

/-- C9: a successful `Set(v)` of `Envs`, `Parameters`, `Volumes` or
`PortMappings` on any prior list `L` leaves exactly `L` followed by one new
element, so the list is one longer and every earlier element keeps its
position.  Such calls exist for each of the four: on every prior list,
`A=1`, `a=b`, `/a:/b` and `8080:80/tcp` are accepted and appended at the end,
and every `v` with exactly one `=` is appended by `Envs.Set` and
`Parameters.Set`.  Nothing is deduplicated: setting `A=1` and then `A=2` on the
empty `Envs` leaves both entries in call order. -/
theorem Set_appends_one (T : CaseTables) (v : GoString) :
    (∀ L : Envs, (Envs.Set L v).2 = none →
      ∃ x, (Envs.Set L v).1 = L ++ [x] ∧ (Envs.Set L v).1.length = L.length + 1 ∧
        ∀ i, i < L.length → (Envs.Set L v).1[i]? = L[i]?) ∧
    (∀ L : Parameters, (Parameters.Set L v).2 = none →
      ∃ x, (Parameters.Set L v).1 = L ++ [x] ∧ (Parameters.Set L v).1.length = L.length + 1 ∧
        ∀ i, i < L.length → (Parameters.Set L v).1[i]? = L[i]?) ∧
    (∀ L : Volumes, (Volumes.Set T L v).2 = none →
      ∃ x, (Volumes.Set T L v).1 = L ++ [x] ∧ (Volumes.Set T L v).1.length = L.length + 1 ∧
        ∀ i, i < L.length → (Volumes.Set T L v).1[i]? = L[i]?) ∧
    (∀ L : PortMappings, (PortMappings.Set T L v).2 = none →
      ∃ x, (PortMappings.Set T L v).1 = L ++ [x] ∧
        (PortMappings.Set T L v).1.length = L.length + 1 ∧
        ∀ i, i < L.length → (PortMappings.Set T L v).1[i]? = L[i]?) ∧
    (v.count '=' = 1 → ∀ L : Envs,
      Envs.Set L v = (L ++ [{ Name := before '=' v, Value := after '=' v }], none)) ∧
    (v.count '=' = 1 → ∀ L : Parameters,
      Parameters.Set L v = (L ++ [{ Key := before '=' v, Value := after '=' v }], none)) ∧
    (∀ L : Envs, Envs.Set L "A=1".toList =
      (L ++ [{ Name := "A".toList, Value := "1".toList }], none)) ∧
    (∀ L : Parameters, Parameters.Set L "a=b".toList =
      (L ++ [{ Key := "a".toList, Value := "b".toList }], none)) ∧
    (∀ L : Volumes, Volumes.Set T L "/a:/b".toList =
      (L ++ [{ HostPath := "/a".toList, ContainerPath := "/b".toList, Mode := some RO }], none)) ∧
    (∀ L : PortMappings, PortMappings.Set T L "8080:80/tcp".toList =
      (L ++ [{ HostPort := 8080, ContainerPort := 80, Protocol := some "tcp".toList }], none)) ∧
    (Envs.Set (Envs.Set [] "A=1".toList).1 "A=2".toList).1 =
      [{ Name := "A".toList, Value := "1".toList }, { Name := "A".toList, Value := "2".toList }] := by
  have frame : ∀ {α : Type} (L R : List α) (x : α), R = L ++ [x] →
      ∃ y, R = L ++ [y] ∧ R.length = L.length + 1 ∧ ∀ i, i < L.length → R[i]? = L[i]? := by
    intro α L R x h
    subst h
    exact ⟨x, rfl, by simp, fun i hi => List.getElem?_append_left hi⟩
  refine ⟨?_, ?_, ?_, ?_, fun h => (Set_of_one_eq v h).1, fun h => (Set_of_one_eq v h).2,
    fun L => rfl, fun L => rfl, fun L => rfl, fun L => rfl, by decide⟩
  · intro L h
    have hl : (Split v '=').length = 2 := by
      by_contra hl
      unfold Envs.Set at h
      simp [hl, Errorf] at h
    have hc : v.count '=' = 1 := by rw [Split_length] at hl; omega
    exact frame L _ _ (by rw [(Set_of_one_eq v hc).1 L])
  · intro L h
    have hl : (Split v '=').length = 2 := by
      by_contra hl
      unfold Parameters.Set at h
      simp [hl, Errorf] at h
    have hc : v.count '=' = 1 := by rw [Split_length] at hl; omega
    exact frame L _ _ (by rw [(Set_of_one_eq v hc).2 L])
  · intro L h
    rcases Volumes_Set_cases T L v with e | ⟨x, e⟩
    · rw [e] at h; simp [Errorf] at h
    · exact frame L _ x (by rw [e])
  · intro L h
    rcases PortMappings_Set_cases T L v with e | ⟨x, e⟩
    · rw [e] at h; simp [Errorf] at h
    · exact frame L _ x (by rw [e])

theorem foldl_append_singleton {α : Type} (l : List α) :
    ∀ acc : List α, l.foldl (fun tasks info => tasks ++ [info]) acc = acc ++ l := by
  induction l with
  | nil => intro acc; simp
  | cons x xs ih => intro acc; simp [ih]

theorem Run_finish_events {Profile TaskInfo : Type} (C : Collaborators Profile TaskInfo)
    (f : RunFlags) (profile : Profile) (tasks : List TaskInfo) :
    (∀ texts, Event.PrintLongHelp texts ∉ Run.finish C f profile tasks) ∧
    (∀ opts, Event.With opts ∉ Run.finish C f profile tasks) ∧
    (∀ p, Event.Task p ∉ Run.finish C f profile tasks) ∧
    (∀ p t, Event.Run p t ∈ Run.finish C f profile tasks → p = profile ∧ t = tasks) ∧
    (f.dump = false → Event.Run profile tasks ∈ Run.finish C f profile tasks) := by
  unfold Run.finish
  by_cases hd : f.dump = true
  · rw [if_pos hd]
    cases C.MarshalIndent tasks <;> simp [failOnErr, hd]
  · rw [if_neg hd]
    cases C.Run profile tasks <;> simp [failOnErr]

theorem Run_Action_help {Profile TaskInfo : Type} (C : Collaborators Profile TaskInfo)
    (f : RunFlags) (h : f.command = [] ∧ f.image = [] ∧ f.path = []) :
    Run.Action C f =
      match PrintLongHelp f with
      | none => [Event.Panic]
      | some texts => [Event.PrintLongHelp texts, Event.Exit 1] := by
  unfold Run.Action
  rw [if_pos h]

/-- C13: with `CMD`, `--image` and `--path` all empty and the one flag
`-p 8080:80`, the action does not exit with code 1: printing the help reads
`PortMappings.String`, which panics on the mapping without a protocol, and the
panic ends the run.  For flags whose port mappings can all be rendered the
action prints the help and exits with code 1 and does nothing else; in both
cases the profile is not obtained, no task is built and `runner.Run` is not
called.  When one of the three is not empty the action starts by obtaining the
profile and never prints the help. -/
theorem Run_Action_help_panics {Profile TaskInfo : Type} (C : Collaborators Profile TaskInfo)
    (f : RunFlags) :
    Run.Action C
        { defaultFlags with mappings := (PortMappings.Set asciiTables [] "8080:80".toList).1 } =
      [Event.Panic] ∧
    Run.Action C defaultFlags =
      [Event.PrintLongHelp [[], [], "BRIDGE".toList, [], []], Event.Exit 1] ∧
    ((f.command = [] ∧ f.image = [] ∧ f.path = []) → PortMappings.String f.mappings = none →
      Run.Action C f = [Event.Panic]) ∧
    ((f.command = [] ∧ f.image = [] ∧ f.path = []) →
      ∀ ports, PortMappings.String f.mappings = some ports →
        Run.Action C f =
          [Event.PrintLongHelp [Envs.String f.envs, Volumes.String f.volumes,
              NetworkMode.String f.net, Parameters.String f.params, ports],
            Event.Exit 1]) ∧
    (¬ (f.command = [] ∧ f.image = [] ∧ f.path = []) →
      (∃ rest, Run.Action C f = Event.GetProfile :: rest) ∧
      ∀ texts, Event.PrintLongHelp texts ∉ Run.Action C f) := by
  refine ⟨?_, ?_, ?_, ?_, ?_⟩
  · rw [Run_Action_help C _ (by decide)]
    have : PrintLongHelp
        { defaultFlags with mappings := (PortMappings.Set asciiTables [] "8080:80".toList).1 } =
        none := by decide
    rw [this]
  · rw [Run_Action_help C _ (by decide)]
    have : PrintLongHelp defaultFlags = some [[], [], "BRIDGE".toList, [], []] := by decide
    rw [this]
  · intro h hs
    rw [Run_Action_help C f h]
    unfold PrintLongHelp
    rw [hs]
  · intro h ports hs
    rw [Run_Action_help C f h]
    unfold PrintLongHelp
    rw [hs]
  · intro h
    unfold Run.Action
    rw [if_neg h]
    refine ⟨⟨_, rfl⟩, ?_⟩
    intro texts
    simp only []
    by_cases hp : f.path = []
    · rw [if_pos hp]
      simp [(Run_finish_events C f _ _).1 texts]
    · rw [if_neg hp]
      cases C.TasksFromFile f.path with
      | error e => simp [failOnErr]
      | ok infos => simp [failOnErr, (Run_finish_events C f _ _).1 texts]

/-- C19: when `--path` is not empty the action applies no option and builds no
task from the profile: every `runner.Run` call gets the base profile as
`profile()` returned it and the tasks of the file in file order, and such a
call is made when the file loads and `--json` is off.  When `--path` is empty,
every `runner.Run` call gets the profile after `With` applied to it, in this
order, `Master` with the `--master` value, `Restart` with the `--restart`
value, `Command` with the `CMD`, `--user`, `--shell` and `-e` values and
`Container` with the `--docker`, `--privileged`, `--image`, `--param`, `-v`,
`--net` and `-p` values, together with the single task built from that profile;
such a call is made when the command or the image is given and `--json` is
off. -/
theorem Run_Action_profile_and_tasks {Profile TaskInfo : Type}
    (C : Collaborators Profile TaskInfo) (f : RunFlags) :
    (f.path ≠ [] →
      (∀ opts, Event.With opts ∉ Run.Action C f) ∧
      (∀ p, Event.Task p ∉ Run.Action C f) ∧
      (∀ p tasks, Event.Run p tasks ∈ Run.Action C f →
        p = C.profile ∧ C.TasksFromFile f.path = .ok tasks) ∧
      (∀ infos, C.TasksFromFile f.path = .ok infos → f.dump = false →
        Event.Run C.profile infos ∈ Run.Action C f)) ∧
    (f.path = [] →
      (∀ p tasks, Event.Run p tasks ∈ Run.Action C f →
        p = C.With C.profile
          [ ProfileOption.Master f.hostname,
            ProfileOption.Restart f.restart,
            ProfileOption.Command
              { Value := f.command, User := f.user, Shell := f.shell, Envs := f.envs },
            ProfileOption.Container
              { Docker := f.docker, Privileged := f.privileged, Image := f.image,
                Parameters := f.params, Volumes := f.volumes,
                NetworkMode := NetworkMode.Mode f.net, PortMappings := f.mappings } ] ∧
        tasks = [C.Task p] ∧
        Event.With
          [ ProfileOption.Master f.hostname,
            ProfileOption.Restart f.restart,
            ProfileOption.Command
              { Value := f.command, User := f.user, Shell := f.shell, Envs := f.envs },
            ProfileOption.Container
              { Docker := f.docker, Privileged := f.privileged, Image := f.image,
                Parameters := f.params, Volumes := f.volumes,
                NetworkMode := NetworkMode.Mode f.net, PortMappings := f.mappings } ] ∈
          Run.Action C f) ∧
      ((f.command ≠ [] ∨ f.image ≠ []) → f.dump = false →
        ∃ p, p = C.With C.profile
          [ ProfileOption.Master f.hostname,
            ProfileOption.Restart f.restart,
            ProfileOption.Command
              { Value := f.command, User := f.user, Shell := f.shell, Envs := f.envs },
            ProfileOption.Container
              { Docker := f.docker, Privileged := f.privileged, Image := f.image,
                Parameters := f.params, Volumes := f.volumes,
                NetworkMode := NetworkMode.Mode f.net, PortMappings := f.mappings } ] ∧
          Event.Run p [C.Task p] ∈ Run.Action C f)) := by
  have hopts : Run.options f =
      [ ProfileOption.Master f.hostname,
        ProfileOption.Restart f.restart,
        ProfileOption.Command
          { Value := f.command, User := f.user, Shell := f.shell, Envs := f.envs },
        ProfileOption.Container
          { Docker := f.docker, Privileged := f.privileged, Image := f.image,
            Parameters := f.params, Volumes := f.volumes,
            NetworkMode := NetworkMode.Mode f.net, PortMappings := f.mappings } ] := rfl
  rw [← hopts]
  constructor
  · intro hp
    have hne : ¬ (f.command = [] ∧ f.image = [] ∧ f.path = []) := fun h => hp h.2.2
    unfold Run.Action
    rw [if_neg hne]
    simp only [if_neg hp]
    cases hf : C.TasksFromFile f.path with
    | error e => simp [failOnErr]
    | ok infos =>
      obtain ⟨_, h2, h3, h4, h5⟩ :=
        Run_finish_events C f C.profile (infos.foldl (fun tasks info => tasks ++ [info]) [])
      have hfold := foldl_append_singleton infos []
      simp only [List.nil_append] at hfold
      rw [hfold] at h2 h3 h4 h5
      simp only [failOnErr, hfold]
      refine ⟨?_, ?_, ?_, ?_⟩
      · intro opts; simp [h2 opts]
      · intro p; simp [h3 p]
      · intro p tasks hm
        simp only [List.mem_cons] at hm
        rcases hm with hm | hm | hm
        · cases hm
        · cases hm
        · obtain ⟨e1, e2⟩ := h4 p tasks hm
          rw [e1, e2]
          exact ⟨rfl, rfl⟩
      · intro infos2 he hd
        cases he
        simp [h5 hd]
  · intro hp
    constructor
    · intro p tasks hm
      by_cases hne : f.command = [] ∧ f.image = [] ∧ f.path = []
      · rw [Run_Action_help C f hne] at hm
        cases hh : PrintLongHelp f with
        | none => rw [hh] at hm; simp at hm
        | some texts => rw [hh] at hm; simp at hm
      · unfold Run.Action at hm ⊢
        rw [if_neg hne] at hm ⊢
        simp only [if_pos hp] at hm ⊢
        simp only [List.mem_cons] at hm
        rcases hm with hm | hm | hm | hm
        · cases hm
        · cases hm
        · cases hm
        · obtain ⟨e1, e2⟩ := (Run_finish_events C f _ _).2.2.2.1 p tasks hm
          subst e1
          exact ⟨rfl, by simpa using e2, by simp⟩
    · intro hc hd
      have hne : ¬ (f.command = [] ∧ f.image = [] ∧ f.path = []) := by
        rintro ⟨h1, h2, _⟩
        rcases hc with hc | hc
        · exact hc h1
        · exact hc h2
      refine ⟨_, rfl, ?_⟩
      unfold Run.Action
      rw [if_neg hne]
      simp only [if_pos hp, List.nil_append]
      have := (Run_finish_events C f (C.With C.profile (Run.options f))
        [C.Task (C.With C.profile (Run.options f))]).2.2.2.2 hd
      simp [this]

/-- C19 on the recording collaborators: with `--path tasks.json` alone
`runner.Run` gets the base profile and the two tasks of the file, and with
`--master m1 --restart echo hi` it gets the profile holding `Master m1`,
`Restart true`, the command `echo hi` run as `root` and the container options
with network mode 2 (`BRIDGE`), together with the one task built from it. -/
theorem Run_Action_profile_and_tasks_witness :
    Event.Run recordingCollaborators.profile
        [[ProfileOption.Restart true], [ProfileOption.Restart false]] ∈
      Run.Action recordingCollaborators { defaultFlags with path := "tasks.json".toList } ∧
    (∃ p, p =
        [ ProfileOption.Master "m1".toList,
          ProfileOption.Restart true,
          ProfileOption.Command
            { Value := "echo hi".toList, User := "root".toList, Shell := false, Envs := [] },
          ProfileOption.Container
            { Docker := false, Privileged := false, Image := [], Parameters := [],
              Volumes := [], NetworkMode := 2, PortMappings := [] } ] ∧
      Event.Run p [p] ∈
        Run.Action recordingCollaborators
          { defaultFlags with
            command := "echo hi".toList, hostname := "m1".toList, restart := true }) :=
  ⟨((Run_Action_profile_and_tasks recordingCollaborators
      { defaultFlags with path := "tasks.json".toList }).1 (by decide)).2.2.2 _ rfl rfl,
   ((Run_Action_profile_and_tasks recordingCollaborators
      { defaultFlags with
        command := "echo hi".toList, hostname := "m1".toList, restart := true }).2 rfl).2
      (Or.inl (by decide)) rfl⟩

end MesosCli
